import Mathlib

/-!
Verification of the debate orchestration core (`src/agents/debate.py`,
`src/agents/agent.py`) of the `debate-ia-agent` repository, as a shallow
embedding in Lean 4.

Modelling conventions:
* Python `Message`, `Turn`, `AgentConfig` dataclasses become structures.
* The generation capability (`provider.chat` / `provider.chat_stream`) is an
  external collaborator; each call site receives its outcome as an explicit
  parameter: a one-shot call yields `Except String String` (provider error
  message or response content), a streaming call yields a `GenResult`
  (either a finite fragment list, or some fragments followed by a raised
  exception).
* The cooperative cancellation flag is set externally (from the TUI) at
  arbitrary points.  Its observations are part of the environment: for each
  streaming consumer loop, `TaskEnv.cutoff = some k` means the flag is first
  observed true at the fragment boundary after receiving fragment `k`
  (`none`: never observed inside that loop), and each inter-phase check
  point reads the scheduled flag value (`RunEnv.postIntro`, `postDisc`,
  `postMod`), OR-ed into the state's flag so that it is monotone within a
  run, as in the source where `cancel()` only ever sets it.
* Python async-generator semantics are modelled exactly: when the consumer
  loop in `_phase_discussion` / `_stream_leader` breaks out of the
  `async for`, the generator `Agent.think_stream` is abandoned at its
  `yield`, so the history-commit lines after its loop never execute.
* `Agent == self.leader` in the source is object identity (the dataclass
  equality recurses into the `provider` field, a plain class compared by
  identity, and every `Agent.__post_init__` creates a fresh provider), so
  the leader is modelled as an index into the agent list.
* Python truthiness tests on strings (`if context:`, `if conclusion_text:`,
  `if agent.config.role:`, `self.config.title or ...`) are modelled as
  emptiness tests.
-/

namespace DebateAgents

/-- `Message` dataclass from `src/providers/base.py` (the optional `name`
field is never set by the core and is omitted). -/
structure Message where
  role : String
  content : String
deriving DecidableEq

/-- `Turn` dataclass from `src/agents/agent.py` (the `timestamp` field is
never set by the core and is omitted). -/
structure Turn where
  round : Nat
  phase : String
  content : String
deriving DecidableEq

/-- `AgentConfig` from `src/config/models.py`, restricted to the fields the
orchestration core reads. -/
structure AgentConfig where
  name : String
  role : String
  provider : String
  model : String
  is_leader : Bool
deriving DecidableEq

/-- `Agent` dataclass state from `src/agents/agent.py`: identity plus the
conversation history and the recorded turns. -/
structure Agent where
  config : AgentConfig
  history : List Message
  turns : List Turn
deriving DecidableEq

/-- `DebateConfig` from `src/config/models.py`.  The prompt templates are
strings with `{placeholder}` slots filled by `str.format`; they are modelled
as functions from the substituted values to the formatted string. -/
structure DebateConfigL where
  rounds : Nat
  initial_prompt : String
  system_prompt : Option String
  leader_prompt : Option String
  intro_prompt : String → String
  moderator_context_tmpl : String → String
  round_header_template : Nat → String
  intervention_prompt : String
  intervention_last_prompt : String
  conclusion_prompt : String → String → String
  continuation_prompt : String → String → String
  previous_debate_label : String → String
  previous_context_label : String → String
  agent_identity_template : String → String → String
  agent_context_template : String → String → String

/-- `MeetingConfig` from `src/config/models.py` (api_keys are consumed only
by provider construction, outside the core). -/
structure MeetingConfigL where
  agent_configs : List AgentConfig
  debate : DebateConfigL
  title : Option String

/-- `DebateEvent` dataclass from `src/agents/debate.py` (the `timestamp`
field is never set by `_emit` and is omitted). -/
structure DebateEvent where
  type : String
  round : Nat
  phase : String
  agent_name : Option String
  content : Option String
  is_streaming : Bool
deriving DecidableEq

/-- Outcome of one `provider.chat_stream` call: either a finite fragment
sequence that ends normally, or some fragments followed by a raised
exception with message `e`. -/
inductive GenResult where
  | ok (chunks : List String)
  | err (prior : List String) (e : String)
deriving DecidableEq

/-- Environment of one streaming consumer loop: the provider outcome and
the first fragment boundary at which the consumer observes the cancellation
flag set (`none` when the flag is never observed inside the loop). -/
structure TaskEnv where
  result : GenResult
  cutoff : Option Nat
deriving DecidableEq

/-- Fragments actually consumed by the loop `async for chunk in ...:
if self._cancelled: break; full_content += chunk` — the flag is checked
after receiving each fragment, so observing it at boundary `k` keeps
exactly the first `k` fragments. -/
def consumedChunks (chunks : List String) : Option Nat → List String
  | none => chunks
  | some k => chunks.take k

/-- Whether the consumer loop ran off the end of an `n`-fragment sequence
without breaking (boundary observations `0..n-1` all saw the flag clear). -/
def streamExhausted (n : Nat) : Option Nat → Bool
  | none => true
  | some k => n ≤ k

/-- Result of one consumed streaming generation: the `full_content`
accumulated by the consumer, the fragments it emitted as streaming events,
and whether `Agent.think_stream` reached its history-commit lines. -/
structure StreamOut where
  content : String
  emitted : List String
  committed : Bool

/-- Semantics of one consumer loop over `Agent.think_stream`, from
`DebateManager._phase_discussion` / `DebateManager._stream_leader`:
on normal exhaustion the full concatenation is kept and the generator
commits history; on a consumer break the partial concatenation is kept and
the abandoned generator commits nothing; on a provider exception reaching
the consumer, `full_content` is replaced by the `[Error: ...]` placeholder
and nothing is committed. -/
def runStreamTask : GenResult → Option Nat → StreamOut
  | GenResult.ok chunks, cut =>
      { content := String.join (consumedChunks chunks cut)
        emitted := consumedChunks chunks cut
        committed := streamExhausted chunks.length cut }
  | GenResult.err prior e, cut =>
      { content :=
          if streamExhausted prior.length cut
          then "[Error: " ++ e ++ "]"
          else String.join (consumedChunks prior cut)
        emitted := consumedChunks prior cut
        committed := false }

/-- If the cancellation flag is already set when a consumer loop starts,
its very first boundary check breaks, i.e. the effective cutoff is 0. -/
def effCutoff (flagBefore : Bool) (cut : Option Nat) : Option Nat :=
  if flagBefore then some 0 else cut

/-- Default identity template `"You are {name}. {role}"` from
`Agent.build_system_prompt`. -/
def defaultIdentityTemplate (name role : String) : String :=
  "You are " ++ name ++ ". " ++ role

/-- Default context template from `Agent.think` / `Agent.think_stream`. -/
def defaultContextTemplate (context prompt : String) : String :=
  "Other agents\x27 context:\n" ++ context ++ "\n\nQuestion: " ++ prompt

/-- Python `if s:` truthiness for an optional string part. -/
def optPart : Option String → List String
  | some s => if s = "" then [] else [s]
  | none => []

/-- `Agent.build_system_prompt` from `src/agents/agent.py`. -/
def Agent.build_system_prompt (a : Agent) (global_system : Option String)
    (leader_prompt : Option String)
    (identity_template : Option (String → String → String)) : String :=
  let tmpl := identity_template.getD defaultIdentityTemplate
  String.intercalate "\n\n"
    (optPart global_system ++ [tmpl a.config.name a.config.role]
      ++ optPart leader_prompt)

/-- The `user_content` computed at the top of `Agent.think` and
`Agent.think_stream`: the raw prompt, or the context template applied to a
non-empty context. -/
def userContent (prompt : String) (context : Option String)
    (context_template : Option (String → String → String)) : String :=
  match context with
  | some ctx =>
      if ctx = "" then prompt
      else (context_template.getD defaultContextTemplate) ctx prompt
  | none => prompt

/-- `Agent.think` from `src/agents/agent.py`: one-shot generation.  The
provider outcome is `providerResult`; on success the user and assistant
messages are appended to the history, on a provider exception the error
propagates and the history is untouched (the appends are after the await). -/
def Agent.think (a : Agent) (prompt : String) (context : Option String)
    (context_template : Option (String → String → String))
    (providerResult : Except String String) :
    Except String String × Agent :=
  let uc := userContent prompt context context_template
  match providerResult with
  | Except.error e => (Except.error e, a)
  | Except.ok content =>
      (Except.ok content,
        { a with history := a.history ++
            [⟨"user", uc⟩, ⟨"assistant", content⟩] })

/-- Effect of one consumed `Agent.think_stream` call on the agent: the
history commit (user message plus full accumulated assistant message)
happens only when the generator loop was exhausted. -/
def Agent.applyStream (a : Agent) (uc : String) (out : StreamOut) : Agent :=
  if out.committed then
    { a with history := a.history ++
        [⟨"user", uc⟩, ⟨"assistant", out.content⟩] }
  else a

/-- `List.mapIdx` with an explicit starting index, used to model loops over
`self.agents` in which the body's behaviour depends on whether the current
agent *is* the leader (object identity, i.e. index equality). -/
def mapIdxFrom (f : Nat → α → β) : Nat → List α → List β
  | _, [] => []
  | i, a :: as => f i a :: mapIdxFrom f (i + 1) as

/-- `DebateManager` mutable state from `src/agents/debate.py` (`config`,
`agents`, `leader`, `events`, `_current_round`, `_current_phase`,
`_leader_last_content`, `_cancelled`, `_last_round_responses`).  The
`leader` reference is an index into `agents`; the `_last_round_responses`
dict is an association list in insertion order. -/
structure DebateState where
  cfg : DebateConfigL
  title : Option String
  agents : List Agent
  leaderIdx : Option Nat
  events : List DebateEvent
  current_round : Nat
  current_phase : String
  leader_last_content : String
  cancelled : Bool
  last_round_responses : List (String × String)

/-- `self.leader` resolved to its index and current value. -/
def leaderAgent? (st : DebateState) : Option (Nat × Agent) :=
  match st.leaderIdx with
  | none => none
  | some L =>
      match st.agents[L]? with
      | some a => some (L, a)
      | none => none

/-- `DebateManager._emit`. -/
def emit (st : DebateState) (type : String) (round : Nat) (phase : String)
    (agent_name : Option String) (content : Option String)
    (is_streaming : Bool) : DebateState :=
  { st with events := st.events ++
      [⟨type, round, phase, agent_name, content, is_streaming⟩] }

/-- The per-fragment streaming events emitted inside one consumer loop. -/
def chunkEvents (type : String) (round : Nat) (phase : String)
    (name : String) (chunks : List String) : List DebateEvent :=
  chunks.map (fun c => ⟨type, round, phase, some name, some c, true⟩)

/-- `DebateManager.cancel`. -/
def cancel (st : DebateState) : DebateState :=
  { st with cancelled := true }

/-- A check point reading the cancellation flag: the externally scheduled
value `b` is OR-ed in, keeping the flag monotone within a run. -/
def setFlag (st : DebateState) (b : Bool) : DebateState :=
  { st with cancelled := st.cancelled || b }

/-- Index of the leader designated by `DebateManager.initialize`: the loop
`for agent_config in ...: if agent_config.is_leader: self.leader = agent`
keeps the LAST flagged config. -/
def lastLeaderIdxFrom : Nat → List AgentConfig → Option Nat
  | _, [] => none
  | i, c :: rest =>
      match lastLeaderIdxFrom (i + 1) rest with
      | some j => some j
      | none => if c.is_leader then some i else none

/-- A fresh `Agent` as built by `DebateManager.initialize`. -/
def mkAgent (c : AgentConfig) : Agent :=
  { config := c, history := [], turns := [] }

/-- `DebateManager.__init__` followed by `DebateManager.initialize`: build
all agents, designate the leader (falling back to the first agent when no
config is flagged and the list is non-empty). -/
def initDebate (mc : MeetingConfigL) : DebateState :=
  let agents := mc.agent_configs.map mkAgent
  let leaderIdx :=
    match lastLeaderIdxFrom 0 mc.agent_configs with
    | some i => some i
    | none => if agents.isEmpty then none else some 0
  { cfg := mc.debate, title := mc.title, agents := agents
    leaderIdx := leaderIdx, events := [], current_round := 0
    current_phase := "", leader_last_content := "", cancelled := false
    last_round_responses := [] }

/-- The `full_content` produced by one consumer loop whose entering flag
value is `flag`. -/
def phaseContent (flag : Bool) (te : TaskEnv) : String :=
  (runStreamTask te.result (effCutoff flag te.cutoff)).content

/-- The update a completed leader streaming step applies to the leader
agent: the conditional history commit of `think_stream`, then the recorded
turn. -/
def leaderUpd (prompt : String) (out : StreamOut) (turn : Turn) (a : Agent) : Agent :=
  let a := a.applyStream prompt out
  { a with turns := a.turns ++ [turn] }

/-- `DebateManager._phase_intro`: the moderator opens the debate; its turn
is recorded with round 0 and its content seeds the cross-round context. -/
def phase_intro (st : DebateState) (env : TaskEnv) : DebateState :=
  let startEv : DebateEvent := ⟨"phase_start", 0, "intro", none, none, false⟩
  match leaderAgent? st with
  | none =>
      { st with current_phase := "intro", events := st.events ++ [startEv] }
  | some (L, leader) =>
      let prompt := st.cfg.intro_prompt st.cfg.initial_prompt
      let out := runStreamTask env.result (effCutoff st.cancelled env.cutoff)
      let evs : List DebateEvent :=
        startEv
          :: ⟨"leader_section_start", 0, "intro", some leader.config.name,
                some "## Debate Opening", false⟩
          :: ⟨"leader_thinking", 0, "intro", some leader.config.name, none, false⟩
          :: chunkEvents "leader_streaming" 0 "intro" leader.config.name out.emitted
          ++ [⟨"leader_speak", 0, "intro", some leader.config.name,
                some out.content, false⟩]
      { st with
          current_phase := "intro",
          events := st.events ++ evs,
          agents := st.agents.set L
            (leaderUpd prompt out ⟨0, "intro", out.content⟩ leader),
          leader_last_content := out.content }

/-- Per-round environment of `_phase_discussion`: the streaming outcome and
flag observations of each agent's concurrent task, indexed by the agent's
position in `st.agents`. -/
structure DiscussionEnv where
  tasks : Nat → TaskEnv

/-- The common context handed to every agent in a discussion round: the
moderator template around the last moderator content, when non-empty. -/
def discContext (st : DebateState) : Option String :=
  if st.leader_last_content = "" then none
  else some (st.cfg.moderator_context_tmpl st.leader_last_content)

/-- The update one `get_agent_response` discussion task applies to a
non-leader agent: the conditional history commit of `think_stream`, then
the recorded turn (present even on error or cancellation). -/
def discussionUpd (st : DebateState) (env : DiscussionEnv)
    (round_num i : Nat) (a : Agent) : Agent :=
  let uc := userContent st.cfg.initial_prompt (discContext st)
    (some st.cfg.agent_context_template)
  let out := runStreamTask (env.tasks i).result
    (effCutoff st.cancelled (env.tasks i).cutoff)
  let a := a.applyStream uc out
  { a with turns := a.turns ++ [⟨round_num, "discussion", out.content⟩] }

/-- One `get_agent_response` task of `_phase_discussion`: the leader task
returns its name with empty content and touches nothing; a non-leader task
streams, records its turn, and reports its name, content and events. -/
def discussionStep (st : DebateState) (env : DiscussionEnv) (round_num : Nat)
    (i : Nat) (a : Agent) : Agent × (String × String) × List DebateEvent :=
  if st.leaderIdx = some i then (a, (a.config.name, ""), [])
  else
    let out := runStreamTask (env.tasks i).result
      (effCutoff st.cancelled (env.tasks i).cutoff)
    let evs :=
      ⟨"agent_thinking", round_num, "discussion", some a.config.name, none, false⟩
      :: chunkEvents "agent_streaming" round_num "discussion" a.config.name out.emitted
      ++ [⟨"agent_speak", round_num, "discussion", some a.config.name,
            some out.content, false⟩]
    (discussionUpd st env round_num i a, (a.config.name, out.content), evs)

/-- `DebateManager._phase_discussion`, assembled: the fanned-out tasks in
agent order, the updated agents, the interleaved events (one admissible
order), and the filtered `_last_round_responses`. -/
def phase_discussion (st : DebateState) (env : DiscussionEnv)
    (round_num : Nat) : DebateState :=
  let processed := mapIdxFrom (discussionStep st env round_num) 0 st.agents
  { st with
      current_phase := "discussion_" ++ toString round_num,
      agents := processed.map (fun p => p.1),
      events := st.events
        ++ ⟨"phase_start", round_num, "discussion", none, none, false⟩
          :: (processed.map (fun p => p.2.2)).flatten,
      last_round_responses :=
        (processed.map (fun p => p.2.1)).filter
          (fun p => !(p.1 == "") && !(p.2 == "")) }

/-- `DebateManager._leader_intervention`: the moderator synthesizes the
collected round responses; `is_last` selects the final-round instruction;
the turn content becomes the new cross-round context. -/
def leader_intervention (st : DebateState) (env : TaskEnv)
    (round_num : Nat) : DebateState :=
  match leaderAgent? st with
  | none => st
  | some (L, leader) =>
      let context_parts :=
        st.cfg.round_header_template round_num
          :: st.last_round_responses.map
              (fun p => "\n### " ++ p.1 ++ "\n" ++ p.2)
      let instruction :=
        if st.cfg.rounds ≤ round_num then st.cfg.intervention_last_prompt
        else st.cfg.intervention_prompt
      let prompt :=
        "Original question: " ++ st.cfg.initial_prompt ++ "\n\n"
          ++ String.intercalate "\n" context_parts ++ "\n\n" ++ instruction
      let out := runStreamTask env.result (effCutoff st.cancelled env.cutoff)
      let evs : List DebateEvent :=
        ⟨"leader_section_start", round_num, "leader_intervention",
            some leader.config.name,
            some ("## Round " ++ toString round_num), false⟩
          :: ⟨"leader_thinking", round_num, "leader_intervention",
                some leader.config.name, none, false⟩
          :: chunkEvents "leader_streaming" round_num "leader_intervention"
              leader.config.name out.emitted
          ++ [⟨"leader_speak", round_num, "leader_intervention",
                some leader.config.name, some out.content, false⟩]
      { st with
          events := st.events ++ evs,
          agents := st.agents.set L
            (leaderUpd prompt out
              ⟨round_num, "leader_intervention", out.content⟩ leader),
          leader_last_content := out.content }

/-- The lines a non-leader agent contributes to the conclusion prompt. -/
def agentConclusionPart (a : Agent) : List String :=
  let dturns := a.turns.filter (fun t => t.phase == "discussion")
  if dturns.isEmpty then []
  else ("### " ++ a.config.name)
    :: dturns.map (fun t => "*Round " ++ toString t.round ++ ":* " ++ t.content)

/-- `DebateManager._phase_conclusion`: the moderator produces the final
synthesis from all non-leader discussion turns, recorded at the current
round with phase `conclusion`. -/
def phase_conclusion (st : DebateState) (env : TaskEnv) : DebateState :=
  let startEv : DebateEvent :=
    ⟨"phase_start", st.current_round, "conclusion", none, none, false⟩
  match leaderAgent? st with
  | none =>
      { st with current_phase := "conclusion", events := st.events ++ [startEv] }
  | some (L, leader) =>
      let all_turns_parts :=
        (mapIdxFrom (fun i a =>
            if st.leaderIdx = some i then [] else agentConclusionPart a)
          0 st.agents).flatten
      let prompt := st.cfg.conclusion_prompt st.cfg.initial_prompt
        (String.intercalate "\n\n" all_turns_parts)
      let out := runStreamTask env.result (effCutoff st.cancelled env.cutoff)
      let evs : List DebateEvent :=
        startEv
          :: ⟨"leader_section_start", st.current_round, "conclusion",
                some leader.config.name, some "## Final Synthesis", false⟩
          :: ⟨"leader_thinking", st.current_round, "conclusion",
                some leader.config.name, none, false⟩
          :: chunkEvents "leader_streaming" st.current_round "conclusion"
              leader.config.name out.emitted
          ++ [⟨"leader_speak", st.current_round, "conclusion",
                some leader.config.name, some out.content, false⟩]
      { st with
          current_phase := "conclusion",
          events := st.events ++ evs,
          agents := st.agents.set L
            (leaderUpd prompt out
              ⟨st.current_round, "conclusion", out.content⟩ leader) }

/-- `DebateManager._generate_continuation_question`: a one-shot
`provider.chat` call on the leader that never touches any history; a raised
exception is swallowed into an empty question. -/
def generate_continuation_question (st : DebateState)
    (providerResult : Except String String) : DebateState :=
  match leaderAgent? st with
  | none => st
  | some (_, leader) =>
      let conclusion_turns := leader.turns.filter (fun (t : Turn) => t.phase == "conclusion")
      let conclusion_text :=
        ((conclusion_turns.getLast?).map Turn.content).getD ""
      let _prompt := st.cfg.continuation_prompt st.cfg.initial_prompt conclusion_text
      let question :=
        match providerResult with
        | Except.ok c => c.trim
        | Except.error _ => ""
      { st with events := st.events ++
          [⟨"continuation_thinking", 0, "end", some leader.config.name, none, false⟩,
           ⟨"continuation_suggestion", 0, "end", some leader.config.name,
              some question, false⟩] }

/-- `DebateManager.add_round`: one extra round, context re-seeded from the
last conclusion turn (falling back to `_leader_last_content`), agents
untouched. -/
def add_round (st : DebateState) : DebateState :=
  let conclusion_turns :=
    match leaderAgent? st with
    | some (_, leader) => leader.turns.filter (fun (t : Turn) => t.phase == "conclusion")
    | none => []
  let conclusion_text :=
    ((conclusion_turns.getLast?).map Turn.content).getD st.leader_last_content
  let st :=
    if conclusion_text = "" then st
    else
      { st with leader_last_content :=
          st.cfg.previous_context_label st.cfg.initial_prompt
            ++ "\n" ++ conclusion_text }
  { st with
      cfg := { st.cfg with rounds := st.cfg.rounds + 1 },
      cancelled := false,
      current_phase := "" }

/-- `DebateManager.continue_with`: capture the final synthesis, reset
non-leader agents, append the labelled synthesis to the leader history,
swap the topic prompt, re-seed the context, reset the counters. -/
def continue_with (st : DebateState) (new_prompt : String) : DebateState :=
  let conclusion_turns :=
    match leaderAgent? st with
    | some (_, leader) => leader.turns.filter (fun (t : Turn) => t.phase == "conclusion")
    | none => []
  let conclusion_text :=
    ((conclusion_turns.getLast?).map Turn.content).getD ""
  let resetAgents :=
    mapIdxFrom (fun i a =>
        if st.leaderIdx = some i then a
        else { a with history := [], turns := [] })
      0 st.agents
  let st := { st with agents := resetAgents }
  let st :=
    if conclusion_text ≠ "" then
      match leaderAgent? st with
      | some (L, leader) =>
          let msg : Message :=
            ⟨"assistant",
              st.cfg.previous_debate_label st.cfg.initial_prompt
                ++ "\n" ++ conclusion_text⟩
          let leader := { leader with history := leader.history ++ [msg] }
          { st with agents := st.agents.set L leader }
      | none => st
    else st
  let st := { st with cfg := { st.cfg with initial_prompt := new_prompt } }
  let st :=
    if conclusion_text ≠ "" then
      { st with leader_last_content :=
          st.cfg.previous_context_label st.cfg.initial_prompt
            ++ "\n" ++ conclusion_text }
    else { st with leader_last_content := "" }
  { st with
      cancelled := false,
      current_round := 0,
      current_phase := "",
      last_round_responses := [] }

/-- Environment of one whole `run`: outcomes of every generation call and
the externally scheduled cancellation-flag values at each check point. -/
structure RunEnv where
  introTask : TaskEnv
  postIntro : Bool
  discTasks : Nat → DiscussionEnv
  postDisc : Nat → Bool
  modTask : Nat → TaskEnv
  postMod : Nat → Bool
  conclusionTask : TaskEnv
  continuation : Except String String

/-- The result dictionary of `run`: each agent's name mapped to its turns. -/
def turnsMap (st : DebateState) : List (String × List Turn) :=
  st.agents.map (fun a => (a.config.name, a.turns))

/-- The discussion/moderation loop of `DebateManager.run` for rounds
`r, r+1, ...` with `m` rounds remaining; the Boolean reports whether the
loop returned early on a cancellation check. -/
def runRounds (env : RunEnv) : DebateState → Nat → Nat → DebateState × Bool
  | st, _, 0 => (st, false)
  | st, r, Nat.succ m =>
      let st := { st with current_round := r }
      let st := phase_discussion st (env.discTasks r) r
      let st := setFlag st (env.postDisc r)
      if st.cancelled then (st, true)
      else
        let st := leader_intervention st (env.modTask r) r
        let st := setFlag st (env.postMod r)
        if st.cancelled then (st, true)
        else runRounds env st (r + 1) m

/-- `DebateManager.run`: intro, the round loop with its cancellation
checks, conclusion, the end event, and the follow-up question.  Every
cancellation path returns the current turn map, never an error. -/
def run (st0 : DebateState) (env : RunEnv) :
    DebateState × List (String × List Turn) :=
  let st1 := emit st0 "start" 0 "init" none none false
  let st2 := phase_intro st1 env.introTask
  let st3 := setFlag st2 env.postIntro
  if st3.cancelled then (st3, turnsMap st3)
  else
    let p := runRounds env st3 1 st3.cfg.rounds
    if p.2 then (p.1, turnsMap p.1)
    else
      let st4 := phase_conclusion p.1 env.conclusionTask
      let st5 := emit st4 "end" 0 "end" none none false
      let st6 := generate_continuation_question st5 env.continuation
      (st6, turnsMap st6)

/-- The section label for one leader turn in `_build_markdown`
(`phase_labels` dict plus the per-round fallback). -/
def leaderPhaseLabel (t : Turn) : String :=
  if t.phase == "intro" then "Debate Opening"
  else if t.phase == "conclusion" then "Final Synthesis"
  else "Round " ++ toString t.round

/-- `DebateManager._build_markdown`: the exported document, a pure function
of the session state. -/
def build_markdown (st : DebateState) : String :=
  let title :=
    match st.title with
    | some t => if t = "" then "Agents Meeting" else t
    | none => "Agents Meeting"
  let lines0 : List String :=
    ["# " ++ title, "", "> " ++ st.cfg.initial_prompt, "", "---", ""]
  let leaderTurnLines : Turn → List String := fun t =>
    ["### " ++ leaderPhaseLabel t, "", t.content, ""]
  let leaderLines : List String :=
    match leaderAgent? st with
    | none => []
    | some (_, leader) =>
        ["## " ++ leader.config.name ++ " ("
            ++ leader.config.provider ++ " / " ++ leader.config.model ++ ")", ""]
          ++ (leader.turns.map leaderTurnLines).flatten
          ++ ["---", ""]
  let non_leaders :=
    (mapIdxFrom (fun i a =>
        if st.leaderIdx = some i then none else some a) 0 st.agents).filterMap id
  let agentTurnLines : Turn → Option (List String) := fun t =>
    if t.phase == "discussion" then
      some ["**Round " ++ toString t.round ++ "**", "", t.content, ""]
    else none
  let oneAgentLines : Agent → List String := fun a =>
    ["### " ++ a.config.name ++ " ("
        ++ a.config.provider ++ " / " ++ a.config.model ++ ")"]
      ++ (if a.config.role == "" then [] else ["*" ++ a.config.role ++ "*"])
      ++ [""]
      ++ (a.turns.filterMap agentTurnLines).flatten
  let agentLines : List String :=
    if non_leaders.isEmpty then []
    else ["## Agents", ""] ++ (non_leaders.map oneAgentLines).flatten
  String.intercalate "\n" (lines0 ++ leaderLines ++ agentLines)

/-- The default export file name built from the current time. -/
def defaultSavePath (now : String) : String := "debate_" ++ now ++ ".md"

/-- `DebateManager.save`: render the Markdown and write it to `path` (or a
timestamp-derived default).  Modelled as returning the effective path, the
written content, and the (unmodified) session state. -/
def save (st : DebateState) (path : Option String) (now : String) :
    String × String × DebateState :=
  let p := match path with
    | none => defaultSavePath now
    | some q => q
  (p, build_markdown st, st)

/-! ### Statement helpers -/

/-- Turns currently recorded by the agent at index `i`. -/
def agentTurns (st : DebateState) (i : Nat) : List Turn :=
  match st.agents[i]? with
  | some a => a.turns
  | none => []

/-- Conversation history currently held by the agent at index `i`. -/
def agentHistory (st : DebateState) (i : Nat) : List Message :=
  match st.agents[i]? with
  | some a => a.history
  | none => []

/-- Identity of the agent at index `i`. -/
def agentConfigAt (st : DebateState) (i : Nat) : Option AgentConfig :=
  st.agents[i]?.map Agent.config

/-- The moderator's recorded turns. -/
def leaderTurns (st : DebateState) : List Turn :=
  match leaderAgent? st with
  | some (_, a) => a.turns
  | none => []

/-- The (round, phase) signature of a turn. -/
def turnPair (t : Turn) : Nat × String := (t.round, t.phase)

/-- Number of round-0 opening turns in a turn list. -/
def countIntroTurns (ts : List Turn) : Nat :=
  ts.countP (fun t => t.round == 0 && t.phase == "intro")

/-- Content a consumer loop entered with a clear flag extracts from its
task environment. -/
def taskContent (te : TaskEnv) : String :=
  (runStreamTask te.result te.cutoff).content

/-- Content of the round-`r` discussion turn of the agent at index `i`
under environment `env` (when the phase is entered with a clear flag). -/
def discContent (env : RunEnv) (r i : Nat) : String :=
  taskContent ((env.discTasks r).tasks i)

/-- Content of the round-`r` moderation turn under environment `env`. -/
def modContent (env : RunEnv) (r : Nat) : String :=
  taskContent (env.modTask r)

/-- An environment in which `cancel()` is never invoked: every check point
reads a clear flag. -/
def NoCancelEnv (env : RunEnv) : Prop :=
  env.postIntro = false ∧ (∀ r, env.postDisc r = false)
    ∧ (∀ r, env.postMod r = false)

/-- A task whose provider call succeeds and whose consumer loop never
observes the cancellation flag. -/
def TaskEnv.clean (te : TaskEnv) : Prop :=
  te.cutoff = none ∧ ∃ cs, te.result = GenResult.ok cs

/-- An environment with no cancellation and no generation errors. -/
def CleanEnv (env : RunEnv) : Prop :=
  NoCancelEnv env ∧ env.introTask.clean ∧ env.conclusionTask.clean
    ∧ (∀ r i, ((env.discTasks r).tasks i).clean) ∧ (∀ r, (env.modTask r).clean)

/-- `st'` extends `st` by appending events none of which is the follow-up
suggestion (used to state that a cancelled run never reaches FOLLOWUP). -/
def NoFollowupTail (st st' : DebateState) : Prop :=
  ∃ tail, st'.events = st.events ++ tail ∧
    ∀ e ∈ tail, e.type ≠ "continuation_suggestion"

/-! ### Concrete fixtures for witnesses and counterexamples -/

/-- A small concrete debate configuration used by witnesses. -/
def cfgT : DebateConfigL where
  rounds := 1
  initial_prompt := "t"
  system_prompt := none
  leader_prompt := none
  intro_prompt := fun s => "I:" ++ s
  moderator_context_tmpl := fun s => "M:" ++ s
  round_header_template := fun n => "R" ++ toString n
  intervention_prompt := "iv"
  intervention_last_prompt := "ivl"
  conclusion_prompt := fun a b => "C:" ++ a ++ ":" ++ b
  continuation_prompt := fun a b => "Q:" ++ a ++ ":" ++ b
  previous_debate_label := fun s => "PD:" ++ s
  previous_context_label := fun s => "PC:" ++ s
  agent_identity_template := fun n r => n ++ ":" ++ r
  agent_context_template := fun c p => c ++ "|" ++ p

/-- Concrete moderator / participant identities. -/
def acM : AgentConfig := ⟨"m", "mod", "openai", "g", true⟩

/-- First concrete non-moderator participant. -/
def acA : AgentConfig := ⟨"a", "ra", "openai", "g", false⟩

/-- Second concrete non-moderator participant. -/
def acB : AgentConfig := ⟨"b", "rb", "openai", "g", false⟩

/-- A concrete meeting: one moderator and two participants, one round. -/
def mcT : MeetingConfigL := ⟨[acM, acA, acB], cfgT, some "T"⟩

/-- A streaming task that succeeds with the given fragments and never
observes the cancellation flag. -/
def okTask (cs : List String) : TaskEnv := ⟨GenResult.ok cs, none⟩

/-- A concrete run environment with no cancellation and no errors. -/
def cleanEnvT : RunEnv where
  introTask := okTask ["i1", "i2"]
  postIntro := false
  discTasks := fun r => ⟨fun i => okTask ["d", toString r, toString i]⟩
  postDisc := fun _ => false
  modTask := fun r => okTask ["s", toString r]
  postMod := fun _ => false
  conclusionTask := okTask ["c"]
  continuation := Except.ok " q "

/-- Same meeting with two rounds (for the cancellation witness). -/
def mc2T : MeetingConfigL := ⟨[acM, acA, acB], { cfgT with rounds := 2 }, some "T"⟩

/-- The clean environment with the follow-up provider call raising. -/
def envErrT : RunEnv := { cleanEnvT with continuation := Except.error "boom" }

/-- The clean environment, except that agent 1's discussion task raises in
round 1 before yielding any fragment. -/
def envC6T : RunEnv :=
  { cleanEnvT with
      discTasks := fun r =>
        ⟨fun i =>
          if r = 1 ∧ i = 1 then ⟨GenResult.err [] "boom", none⟩
          else okTask ["d", toString r, toString i]⟩ }

/-- The clean environment with the cancellation flag set during the
round-1 discussion phase (observed at the following check). -/
def envC5T : RunEnv := { cleanEnvT with postDisc := fun r => r == 1 }

/-- A discussion round in which agent 1's stream is abandoned on
cancellation after one fragment. -/
def denvC2T : DiscussionEnv :=
  ⟨fun i => if i = 1 then ⟨GenResult.ok ["x", "y", "z"], some 1⟩
    else okTask ["w"]⟩

/-- A discussion round in which agent 1's generation raises. -/
def denvC3T : DiscussionEnv :=
  ⟨fun i => if i = 1 then ⟨GenResult.err [] "boom", none⟩ else okTask ["w"]⟩

/-- A session state right after a finished debate: the moderator holds a
conclusion turn and the context carrier is non-empty. -/
def stC8 : DebateState where
  cfg := cfgT
  title := some "T"
  agents := [⟨acM, [⟨"user", "q"⟩], [⟨1, "conclusion", "Z"⟩]⟩, ⟨acA, [], [⟨1, "discussion", "d"⟩]⟩]
  leaderIdx := some 0
  events := []
  current_round := 1
  current_phase := "conclusion"
  leader_last_content := "w"
  cancelled := false
  last_round_responses := []

/-- A concrete agent with one prior exchange in history. -/
def agT : Agent := ⟨acA, [⟨"user", "h"⟩, ⟨"assistant", "i"⟩], []⟩

/-! ### Basic lemmas -/

theorem mapIdxFrom_length (f : Nat → α → β) :
    ∀ (n : Nat) (l : List α), (mapIdxFrom f n l).length = l.length
  | _, [] => rfl
  | n, _ :: as => by
      simp only [mapIdxFrom, List.length_cons, mapIdxFrom_length f (n + 1) as]

theorem mapIdxFrom_getElem? (f : Nat → α → β) :
    ∀ (n i : Nat) (l : List α),
      (mapIdxFrom f n l)[i]? = (l[i]?).map (f (n + i))
  | _, _, [] => by simp [mapIdxFrom]
  | n, 0, a :: as => by simp [mapIdxFrom]
  | n, i + 1, a :: as => by
      simp only [mapIdxFrom, List.getElem?_cons_succ]
      rw [mapIdxFrom_getElem? f (n + 1) i as]
      have : n + 1 + i = n + (i + 1) := by omega
      rw [this]

theorem leaderAgent?_eq_some {st : DebateState} {L : Nat} {a : Agent}
    (h : leaderAgent? st = some (L, a)) :
    st.leaderIdx = some L ∧ st.agents[L]? = some a := by
  unfold leaderAgent? at h
  rcases hli : st.leaderIdx with _ | M <;> rw [hli] at h
  · simp at h
  · rcases ha : st.agents[M]? with _ | b <;> simp only [ha] at h
    · simp at h
    · simp only [Option.some.injEq, Prod.mk.injEq] at h
      constructor
      · rw [h.1]
      · rw [← h.1, ha, h.2]

theorem leaderAgent?_of (st : DebateState) {L : Nat} {a : Agent}
    (hL : st.leaderIdx = some L) (ha : st.agents[L]? = some a) :
    leaderAgent? st = some (L, a) := by
  unfold leaderAgent?
  rw [hL]
  simp only [ha]

theorem applyStream_config (a : Agent) (uc : String) (out : StreamOut) :
    (a.applyStream uc out).config = a.config := by
  unfold Agent.applyStream
  split <;> rfl

theorem applyStream_turns (a : Agent) (uc : String) (out : StreamOut) :
    (a.applyStream uc out).turns = a.turns := by
  unfold Agent.applyStream
  split <;> rfl

theorem leaderUpd_config (prompt : String) (out : StreamOut) (turn : Turn)
    (a : Agent) : (leaderUpd prompt out turn a).config = a.config := by
  unfold leaderUpd
  simp [applyStream_config]

theorem leaderUpd_turns (prompt : String) (out : StreamOut) (turn : Turn)
    (a : Agent) : (leaderUpd prompt out turn a).turns = a.turns ++ [turn] := by
  unfold leaderUpd
  simp [applyStream_turns]

theorem discussionUpd_config (st : DebateState) (env : DiscussionEnv)
    (r i : Nat) (a : Agent) :
    (discussionUpd st env r i a).config = a.config := by
  unfold discussionUpd
  simp [applyStream_config]

theorem discussionUpd_turns (st : DebateState) (env : DiscussionEnv)
    (r i : Nat) (a : Agent) :
    (discussionUpd st env r i a).turns = a.turns ++
      [⟨r, "discussion", phaseContent st.cancelled (env.tasks i)⟩] := by
  unfold discussionUpd phaseContent
  simp [applyStream_turns]

theorem getElem?_some_lt {l : List α} {i : Nat} {a : α}
    (h : l[i]? = some a) : i < l.length :=
  (List.getElem?_eq_some.mp h).1

/-! ### Projection lemmas for the phase functions -/

theorem phase_intro_cancelled (st : DebateState) (env : TaskEnv) :
    (phase_intro st env).cancelled = st.cancelled := by
  unfold phase_intro
  rcases h : leaderAgent? st with _ | ⟨L, a⟩ <;> rfl

theorem phase_intro_cfg (st : DebateState) (env : TaskEnv) :
    (phase_intro st env).cfg = st.cfg := by
  unfold phase_intro
  rcases h : leaderAgent? st with _ | ⟨L, a⟩ <;> rfl

theorem phase_intro_leaderIdx (st : DebateState) (env : TaskEnv) :
    (phase_intro st env).leaderIdx = st.leaderIdx := by
  unfold phase_intro
  rcases h : leaderAgent? st with _ | ⟨L, a⟩ <;> rfl

theorem phase_intro_current_round (st : DebateState) (env : TaskEnv) :
    (phase_intro st env).current_round = st.current_round := by
  unfold phase_intro
  rcases h : leaderAgent? st with _ | ⟨L, a⟩ <;> rfl

theorem phase_intro_agents_length (st : DebateState) (env : TaskEnv) :
    (phase_intro st env).agents.length = st.agents.length := by
  unfold phase_intro
  rcases h : leaderAgent? st with _ | ⟨L, a⟩
  · rfl
  · simp

theorem phase_intro_configAt (st : DebateState) (env : TaskEnv) (i : Nat) :
    agentConfigAt (phase_intro st env) i = agentConfigAt st i := by
  unfold phase_intro agentConfigAt
  rcases h : leaderAgent? st with _ | ⟨L, a⟩
  · rfl
  · obtain ⟨hL, ha⟩ := leaderAgent?_eq_some h
    by_cases hiL : i = L
    · subst hiL
      rw [List.getElem?_set_eq_of_lt _ (getElem?_some_lt ha), ha]
      simp [leaderUpd_config]
    · simp [List.getElem?_set_ne (fun hc => hiL hc.symm)]

theorem phase_intro_turns_leader {st : DebateState} (env : TaskEnv)
    {L : Nat} {a : Agent} (h : leaderAgent? st = some (L, a)) :
    agentTurns (phase_intro st env) L =
      agentTurns st L ++ [⟨0, "intro", phaseContent st.cancelled env⟩] := by
  obtain ⟨hL, ha⟩ := leaderAgent?_eq_some h
  unfold phase_intro agentTurns
  rw [h]
  simp only [List.getElem?_set_eq_of_lt _ (getElem?_some_lt ha), ha,
    leaderUpd_turns, phaseContent]

theorem phase_intro_turns_ne {st : DebateState} (env : TaskEnv) {i : Nat}
    (hne : ∀ L a, leaderAgent? st = some (L, a) → i ≠ L) :
    agentTurns (phase_intro st env) i = agentTurns st i := by
  unfold phase_intro agentTurns
  rcases h : leaderAgent? st with _ | ⟨L, a⟩
  · rfl
  · simp [List.getElem?_set_ne (fun hc => hne L a h hc.symm)]

theorem phase_intro_countIntro {st : DebateState} (env : TaskEnv)
    {L : Nat} {a : Agent} (h : leaderAgent? st = some (L, a)) :
    countIntroTurns (agentTurns (phase_intro st env) L) =
      countIntroTurns (agentTurns st L) + 1 := by
  rw [phase_intro_turns_leader env h]
  unfold countIntroTurns
  rw [List.countP_append]
  rfl

theorem leader_intervention_cancelled (st : DebateState) (env : TaskEnv)
    (r : Nat) : (leader_intervention st env r).cancelled = st.cancelled := by
  unfold leader_intervention
  rcases h : leaderAgent? st with _ | ⟨L, a⟩ <;> rfl

theorem leader_intervention_cfg (st : DebateState) (env : TaskEnv)
    (r : Nat) : (leader_intervention st env r).cfg = st.cfg := by
  unfold leader_intervention
  rcases h : leaderAgent? st with _ | ⟨L, a⟩ <;> rfl

theorem leader_intervention_leaderIdx (st : DebateState) (env : TaskEnv)
    (r : Nat) : (leader_intervention st env r).leaderIdx = st.leaderIdx := by
  unfold leader_intervention
  rcases h : leaderAgent? st with _ | ⟨L, a⟩ <;> rfl

theorem leader_intervention_current_round (st : DebateState) (env : TaskEnv)
    (r : Nat) :
    (leader_intervention st env r).current_round = st.current_round := by
  unfold leader_intervention
  rcases h : leaderAgent? st with _ | ⟨L, a⟩ <;> rfl

theorem leader_intervention_agents_length (st : DebateState) (env : TaskEnv)
    (r : Nat) :
    (leader_intervention st env r).agents.length = st.agents.length := by
  unfold leader_intervention
  rcases h : leaderAgent? st with _ | ⟨L, a⟩
  · rfl
  · simp

theorem leader_intervention_configAt (st : DebateState) (env : TaskEnv)
    (r i : Nat) :
    agentConfigAt (leader_intervention st env r) i = agentConfigAt st i := by
  unfold leader_intervention agentConfigAt
  rcases h : leaderAgent? st with _ | ⟨L, a⟩
  · rfl
  · obtain ⟨hL, ha⟩ := leaderAgent?_eq_some h
    by_cases hiL : i = L
    · subst hiL
      rw [List.getElem?_set_eq_of_lt _ (getElem?_some_lt ha), ha]
      simp [leaderUpd_config]
    · simp [List.getElem?_set_ne (fun hc => hiL hc.symm)]

theorem leader_intervention_turns_leader {st : DebateState} (env : TaskEnv)
    (r : Nat) {L : Nat} {a : Agent} (h : leaderAgent? st = some (L, a)) :
    agentTurns (leader_intervention st env r) L =
      agentTurns st L ++
        [⟨r, "leader_intervention", phaseContent st.cancelled env⟩] := by
  obtain ⟨hL, ha⟩ := leaderAgent?_eq_some h
  unfold leader_intervention agentTurns
  rw [h]
  simp only [List.getElem?_set_eq_of_lt _ (getElem?_some_lt ha), ha,
    leaderUpd_turns, phaseContent]

theorem leader_intervention_turns_ne {st : DebateState} (env : TaskEnv)
    (r : Nat) {i : Nat}
    (hne : ∀ L a, leaderAgent? st = some (L, a) → i ≠ L) :
    agentTurns (leader_intervention st env r) i = agentTurns st i := by
  unfold leader_intervention agentTurns
  rcases h : leaderAgent? st with _ | ⟨L, a⟩
  · rfl
  · simp [List.getElem?_set_ne (fun hc => hne L a h hc.symm)]

theorem phase_conclusion_cancelled (st : DebateState) (env : TaskEnv) :
    (phase_conclusion st env).cancelled = st.cancelled := by
  unfold phase_conclusion
  rcases h : leaderAgent? st with _ | ⟨L, a⟩ <;> rfl

theorem phase_conclusion_cfg (st : DebateState) (env : TaskEnv) :
    (phase_conclusion st env).cfg = st.cfg := by
  unfold phase_conclusion
  rcases h : leaderAgent? st with _ | ⟨L, a⟩ <;> rfl

theorem phase_conclusion_leaderIdx (st : DebateState) (env : TaskEnv) :
    (phase_conclusion st env).leaderIdx = st.leaderIdx := by
  unfold phase_conclusion
  rcases h : leaderAgent? st with _ | ⟨L, a⟩ <;> rfl

theorem phase_conclusion_turns_leader {st : DebateState} (env : TaskEnv)
    {L : Nat} {a : Agent} (h : leaderAgent? st = some (L, a)) :
    agentTurns (phase_conclusion st env) L =
      agentTurns st L ++
        [⟨st.current_round, "conclusion", phaseContent st.cancelled env⟩] := by
  obtain ⟨hL, ha⟩ := leaderAgent?_eq_some h
  unfold phase_conclusion agentTurns
  rw [h]
  simp only [List.getElem?_set_eq_of_lt _ (getElem?_some_lt ha), ha,
    leaderUpd_turns, phaseContent]

theorem phase_conclusion_turns_ne {st : DebateState} (env : TaskEnv)
    {i : Nat} (hne : ∀ L a, leaderAgent? st = some (L, a) → i ≠ L) :
    agentTurns (phase_conclusion st env) i = agentTurns st i := by
  unfold phase_conclusion agentTurns
  rcases h : leaderAgent? st with _ | ⟨L, a⟩
  · rfl
  · simp [List.getElem?_set_ne (fun hc => hne L a h hc.symm)]

theorem map_mapIdxFrom (f : Nat → α → β) (g : β → γ) :
    ∀ (n : Nat) (l : List α),
      (mapIdxFrom f n l).map g = mapIdxFrom (fun i a => g (f i a)) n l
  | _, [] => rfl
  | n, a :: as => by
      simp only [mapIdxFrom, List.map_cons, map_mapIdxFrom f g (n + 1) as]

theorem discussionStep_fst_config (st : DebateState) (env : DiscussionEnv)
    (r i : Nat) (a : Agent) :
    ((discussionStep st env r i a).1).config = a.config := by
  unfold discussionStep
  split
  · rfl
  · simp [discussionUpd_config]

theorem discussionStep_fst_leader (st : DebateState) (env : DiscussionEnv)
    (r i : Nat) (a : Agent) (h : st.leaderIdx = some i) :
    (discussionStep st env r i a).1 = a := by
  unfold discussionStep
  rw [if_pos h]

theorem discussionStep_fst_ne (st : DebateState) (env : DiscussionEnv)
    (r i : Nat) (a : Agent) (h : ¬ st.leaderIdx = some i) :
    (discussionStep st env r i a).1 = discussionUpd st env r i a := by
  unfold discussionStep
  rw [if_neg h]

theorem discussionStep_result (st : DebateState) (env : DiscussionEnv)
    (r i : Nat) (a : Agent) :
    (discussionStep st env r i a).2.1 =
      (a.config.name,
        if st.leaderIdx = some i then ""
        else phaseContent st.cancelled (env.tasks i)) := by
  unfold discussionStep phaseContent
  split <;> simp

theorem phase_discussion_cancelled (st : DebateState) (env : DiscussionEnv)
    (r : Nat) : (phase_discussion st env r).cancelled = st.cancelled := rfl

theorem phase_discussion_cfg (st : DebateState) (env : DiscussionEnv)
    (r : Nat) : (phase_discussion st env r).cfg = st.cfg := rfl

theorem phase_discussion_leaderIdx (st : DebateState) (env : DiscussionEnv)
    (r : Nat) : (phase_discussion st env r).leaderIdx = st.leaderIdx := rfl

theorem phase_discussion_current_round (st : DebateState)
    (env : DiscussionEnv) (r : Nat) :
    (phase_discussion st env r).current_round = st.current_round := rfl

theorem phase_discussion_llc (st : DebateState) (env : DiscussionEnv)
    (r : Nat) :
    (phase_discussion st env r).leader_last_content = st.leader_last_content :=
  rfl

theorem phase_discussion_agents_getElem? (st : DebateState)
    (env : DiscussionEnv) (r i : Nat) :
    (phase_discussion st env r).agents[i]? =
      (st.agents[i]?).map (fun a => (discussionStep st env r i a).1) := by
  unfold phase_discussion
  simp only [List.getElem?_map, mapIdxFrom_getElem?, Nat.zero_add]
  rcases st.agents[i]? with _ | a <;> rfl

theorem phase_discussion_agents_length (st : DebateState)
    (env : DiscussionEnv) (r : Nat) :
    (phase_discussion st env r).agents.length = st.agents.length := by
  unfold phase_discussion
  simp [mapIdxFrom_length]

theorem phase_discussion_configAt (st : DebateState) (env : DiscussionEnv)
    (r i : Nat) :
    agentConfigAt (phase_discussion st env r) i = agentConfigAt st i := by
  unfold agentConfigAt
  rw [phase_discussion_agents_getElem?]
  rcases st.agents[i]? with _ | a
  · rfl
  · simp [discussionStep_fst_config]

theorem phase_discussion_turns_leader (st : DebateState)
    (env : DiscussionEnv) (r : Nat) {L : Nat} (hL : st.leaderIdx = some L) :
    agentTurns (phase_discussion st env r) L = agentTurns st L := by
  unfold agentTurns
  rw [phase_discussion_agents_getElem?]
  rcases st.agents[L]? with _ | a
  · rfl
  · simp [discussionStep_fst_leader _ _ _ _ _ hL]

theorem phase_discussion_history_leader (st : DebateState)
    (env : DiscussionEnv) (r : Nat) {L : Nat} (hL : st.leaderIdx = some L) :
    agentHistory (phase_discussion st env r) L = agentHistory st L := by
  unfold agentHistory
  rw [phase_discussion_agents_getElem?]
  rcases st.agents[L]? with _ | a
  · rfl
  · simp [discussionStep_fst_leader _ _ _ _ _ hL]

theorem phase_discussion_turns_ne (st : DebateState) (env : DiscussionEnv)
    (r : Nat) {i : Nat} (hv : i < st.agents.length)
    (hne : ¬ st.leaderIdx = some i) :
    agentTurns (phase_discussion st env r) i =
      agentTurns st i ++
        [⟨r, "discussion", phaseContent st.cancelled (env.tasks i)⟩] := by
  unfold agentTurns
  rw [phase_discussion_agents_getElem?]
  rcases ha : st.agents[i]? with _ | a
  · exact absurd (List.getElem?_eq_none_iff.mp ha) (by omega)
  · simp [discussionStep_fst_ne _ _ _ _ _ hne, discussionUpd_turns]

theorem discussionUpd_history (st : DebateState) (env : DiscussionEnv)
    (r i : Nat) (a : Agent) :
    (discussionUpd st env r i a).history =
      if (runStreamTask (env.tasks i).result
            (effCutoff st.cancelled (env.tasks i).cutoff)).committed then
        a.history ++
          [⟨"user", userContent st.cfg.initial_prompt (discContext st)
              (some st.cfg.agent_context_template)⟩,
           ⟨"assistant", phaseContent st.cancelled (env.tasks i)⟩]
      else a.history := by
  unfold discussionUpd Agent.applyStream phaseContent
  split <;> simp_all

theorem phase_discussion_history_ne (st : DebateState) (env : DiscussionEnv)
    (r : Nat) {i : Nat} (hv : i < st.agents.length)
    (hne : ¬ st.leaderIdx = some i) :
    agentHistory (phase_discussion st env r) i =
      if (runStreamTask (env.tasks i).result
            (effCutoff st.cancelled (env.tasks i).cutoff)).committed then
        agentHistory st i ++
          [⟨"user", userContent st.cfg.initial_prompt (discContext st)
              (some st.cfg.agent_context_template)⟩,
           ⟨"assistant", phaseContent st.cancelled (env.tasks i)⟩]
      else agentHistory st i := by
  unfold agentHistory
  rw [phase_discussion_agents_getElem?]
  rcases ha : st.agents[i]? with _ | a
  · exact absurd (List.getElem?_eq_none_iff.mp ha) (by omega)
  · simp only [Option.map_some', discussionStep_fst_ne _ _ _ _ _ hne,
      discussionUpd_history]

theorem phase_discussion_responses (st : DebateState) (env : DiscussionEnv)
    (r : Nat) :
    (phase_discussion st env r).last_round_responses =
      (mapIdxFrom (fun i a =>
          ((a.config.name,
            if st.leaderIdx = some i then ""
            else phaseContent st.cancelled (env.tasks i)) : String × String))
        0 st.agents).filter (fun p => !(p.1 == "") && !(p.2 == "")) := by
  unfold phase_discussion
  simp only [map_mapIdxFrom]
  have hf : (fun i a => (discussionStep st env r i a).2.1) =
      (fun i (a : Agent) =>
        ((a.config.name,
          if st.leaderIdx = some i then ""
          else phaseContent st.cancelled (env.tasks i)) : String × String)) := by
    funext i a
    rw [discussionStep_result]
  rw [hf]

theorem generate_continuation_question_agents (st : DebateState)
    (pr : Except String String) :
    (generate_continuation_question st pr).agents = st.agents := by
  unfold generate_continuation_question
  rcases h : leaderAgent? st with _ | ⟨L, a⟩ <;> rfl

theorem generate_continuation_question_leaderIdx (st : DebateState)
    (pr : Except String String) :
    (generate_continuation_question st pr).leaderIdx = st.leaderIdx := by
  unfold generate_continuation_question
  rcases h : leaderAgent? st with _ | ⟨L, a⟩ <;> rfl

theorem phase_conclusion_configAt (st : DebateState) (env : TaskEnv)
    (i : Nat) :
    agentConfigAt (phase_conclusion st env) i = agentConfigAt st i := by
  unfold phase_conclusion agentConfigAt
  rcases h : leaderAgent? st with _ | ⟨L, a⟩
  · rfl
  · obtain ⟨hL, ha⟩ := leaderAgent?_eq_some h
    by_cases hiL : i = L
    · subst hiL
      rw [List.getElem?_set_eq_of_lt _ (getElem?_some_lt ha), ha]
      simp [leaderUpd_config]
    · simp [List.getElem?_set_ne (fun hc => hiL hc.symm)]

theorem setFlag_false (st : DebateState) : setFlag st false = st := by
  unfold setFlag
  rw [Bool.or_false]

theorem setFlag_cancelled (st : DebateState) (b : Bool) :
    (setFlag st b).cancelled = (st.cancelled || b) := rfl

theorem phaseContent_false (te : TaskEnv) :
    phaseContent false te = taskContent te := rfl

theorem exists_getElem?_of_lt {l : List α} {i : Nat} (h : i < l.length) :
    ∃ a, l[i]? = some a :=
  ⟨l[i], List.getElem?_eq_getElem h⟩

theorem cons_range_map (f : Nat → α) (m : Nat) :
    f 0 :: (List.range m).map (fun k => f (k + 1)) = (List.range (m + 1)).map f := by
  rw [List.range_succ_eq_map, List.map_cons, List.map_map]
  rfl

/-! ### The round loop without cancellation -/

theorem runRounds_succ_no_cancel (env : RunEnv) (st : DebateState) (r m : Nat)
    (hc : st.cancelled = false)
    (hpd : env.postDisc r = false) (hpm : env.postMod r = false) :
    runRounds env st r (m + 1) =
      runRounds env
        (leader_intervention
          (phase_discussion { st with current_round := r } (env.discTasks r) r)
          (env.modTask r) r)
        (r + 1) m := by
  have h2 : (phase_discussion { st with current_round := r }
      (env.discTasks r) r).cancelled = false := by
    rw [phase_discussion_cancelled]; exact hc
  have h4 : (leader_intervention
      (phase_discussion { st with current_round := r } (env.discTasks r) r)
      (env.modTask r) r).cancelled = false := by
    rw [leader_intervention_cancelled]; exact h2
  rw [runRounds]
  simp only [hpd, hpm, setFlag_false, h2, h4, Bool.false_eq_true, if_false]

theorem runRounds_no_cancel (env : RunEnv) {L : Nat}
    (hpd : ∀ r, env.postDisc r = false) (hpm : ∀ r, env.postMod r = false) :
    ∀ (m : Nat) (st : DebateState) (r : Nat),
      st.cancelled = false → st.leaderIdx = some L → L < st.agents.length →
      (runRounds env st r m).2 = false ∧
      (runRounds env st r m).1.cancelled = false ∧
      (runRounds env st r m).1.leaderIdx = some L ∧
      (runRounds env st r m).1.agents.length = st.agents.length ∧
      (runRounds env st r m).1.cfg = st.cfg ∧
      (∀ i, agentConfigAt (runRounds env st r m).1 i = agentConfigAt st i) ∧
      agentTurns (runRounds env st r m).1 L =
        agentTurns st L ++ (List.range m).map
          (fun k => ⟨r + k, "leader_intervention", modContent env (r + k)⟩) ∧
      (∀ i, i < st.agents.length → i ≠ L →
        agentTurns (runRounds env st r m).1 i =
          agentTurns st i ++ (List.range m).map
            (fun k => ⟨r + k, "discussion", discContent env (r + k) i⟩)) ∧
      (runRounds env st r m).1.current_round =
        (if m = 0 then st.current_round else r + m - 1) := by
  intro m
  induction m with
  | zero =>
      intro st r hc hL hlen
      refine ⟨rfl, hc, hL, rfl, rfl, fun i => rfl, by simp [runRounds],
        fun i _ _ => by simp [runRounds], by simp [runRounds]⟩
  | succ m ih =>
      intro st r hc hL hlen
      set st1 : DebateState := { st with current_round := r } with hst1
      set st2 : DebateState := phase_discussion st1 (env.discTasks r) r with hst2
      set st4 : DebateState := leader_intervention st2 (env.modTask r) r with hst4
      have hc2 : st2.cancelled = false := by
        rw [hst2, phase_discussion_cancelled]; exact hc
      have hL2 : st2.leaderIdx = some L := by
        rw [hst2, phase_discussion_leaderIdx]; exact hL
      have hlen2 : st2.agents.length = st.agents.length := by
        rw [hst2, phase_discussion_agents_length]
      obtain ⟨a2, ha2⟩ := exists_getElem?_of_lt (l := st2.agents) (i := L)
        (by rw [hlen2]; exact hlen)
      have hla2 : leaderAgent? st2 = some (L, a2) := leaderAgent?_of st2 hL2 ha2
      have hc4 : st4.cancelled = false := by
        rw [hst4, leader_intervention_cancelled]; exact hc2
      have hL4 : st4.leaderIdx = some L := by
        rw [hst4, leader_intervention_leaderIdx]; exact hL2
      have hlen4 : st4.agents.length = st.agents.length := by
        rw [hst4, leader_intervention_agents_length, hlen2]
      have heq := runRounds_succ_no_cancel env st r m hc (hpd r) (hpm r)
      rw [← hst1, ← hst2, ← hst4] at heq
      obtain ⟨ihA, ihB, ihC, ihD, ihE, ihF, ihG, ihH, ihI⟩ :=
        ih st4 (r + 1) hc4 hL4 (by rw [hlen4]; exact hlen)
      rw [heq]
      have hturnsL4 : agentTurns st4 L =
          agentTurns st L ++ [⟨r, "leader_intervention", modContent env r⟩] := by
        rw [hst4, leader_intervention_turns_leader (env.modTask r) r hla2,
          hst2, phase_discussion_turns_leader st1 (env.discTasks r) r
            (by rw [hst1]; exact hL)]
        have : agentTurns st1 L = agentTurns st L := rfl
        rw [this, hc2]
        rfl
      have hturns4 : ∀ i, i < st.agents.length → i ≠ L →
          agentTurns st4 i =
            agentTurns st i ++ [⟨r, "discussion", discContent env r i⟩] := by
        intro i hi hne
        have hne2 : ∀ L' a', leaderAgent? st2 = some (L', a') → i ≠ L' := by
          intro L' a' hla'
          rw [hla2] at hla'
          simp only [Option.some.injEq, Prod.mk.injEq] at hla'
          rw [← hla'.1]
          exact hne
        rw [hst4, leader_intervention_turns_ne (env.modTask r) r hne2,
          hst2, phase_discussion_turns_ne st1 (env.discTasks r) r
            (by show i < st.agents.length; exact hi)
            (by show ¬ st.leaderIdx = some i
                intro hcon
                rw [hL] at hcon
                exact hne (by injection hcon with h; exact h.symm))]
        have h1 : agentTurns st1 i = agentTurns st i := rfl
        have h2 : st1.cancelled = false := hc
        rw [h1, h2]
        rfl
      refine ⟨ihA, ihB, ihC, by rw [ihD, hlen4],
        by rw [ihE, hst4, leader_intervention_cfg, hst2, phase_discussion_cfg],
        ?_, ?_, ?_, ?_⟩
      · intro i
        rw [ihF i]
        rw [hst4, leader_intervention_configAt, hst2, phase_discussion_configAt]
        rfl
      · rw [ihG, hturnsL4, List.append_assoc]
        congr 1
        have hmap : (List.range m).map
            (fun k => (⟨r + 1 + k, "leader_intervention",
              modContent env (r + 1 + k)⟩ : Turn)) =
            (List.range m).map
            (fun k => (⟨r + (k + 1), "leader_intervention",
              modContent env (r + (k + 1))⟩ : Turn)) := by
          apply List.map_congr_left
          intro k _
          have h : r + 1 + k = r + (k + 1) := by omega
          rw [h]
        rw [hmap]
        exact cons_range_map
          (fun k => (⟨r + k, "leader_intervention", modContent env (r + k)⟩ : Turn)) m
      · intro i hi hne
        rw [ihH i (by rw [hlen4]; exact hi) hne, hturns4 i hi hne,
          List.append_assoc]
        congr 1
        have hmap : (List.range m).map
            (fun k => (⟨r + 1 + k, "discussion",
              discContent env (r + 1 + k) i⟩ : Turn)) =
            (List.range m).map
            (fun k => (⟨r + (k + 1), "discussion",
              discContent env (r + (k + 1)) i⟩ : Turn)) := by
          apply List.map_congr_left
          intro k _
          have h : r + 1 + k = r + (k + 1) := by omega
          rw [h]
        rw [hmap]
        exact cons_range_map
          (fun k => (⟨r + k, "discussion", discContent env (r + k) i⟩ : Turn)) m
      · rw [ihI]
        have h4r : st4.current_round = r := by
          rw [hst4, leader_intervention_current_round, hst2,
            phase_discussion_current_round]
        by_cases hm : m = 0
        · subst hm
          rw [if_pos rfl, if_neg (by omega : ¬ (0 : Nat) + 1 = 0), h4r]
          omega
        · rw [if_neg hm, if_neg (by omega : ¬ m + 1 = 0)]
          omega

/-! ### Run-level specification without cancellation -/

theorem agentTurns_of_agents_eq {st st' : DebateState}
    (h : st'.agents = st.agents) (i : Nat) :
    agentTurns st' i = agentTurns st i := by
  unfold agentTurns
  rw [h]

theorem agentConfigAt_of_agents_eq {st st' : DebateState}
    (h : st'.agents = st.agents) (i : Nat) :
    agentConfigAt st' i = agentConfigAt st i := by
  unfold agentConfigAt
  rw [h]

theorem generate_continuation_question_spec {st : DebateState} {L : Nat}
    {a : Agent} (pr : Except String String)
    (h : leaderAgent? st = some (L, a)) :
    generate_continuation_question st pr =
      { st with events := st.events ++
          [⟨"continuation_thinking", 0, "end", some a.config.name, none, false⟩,
           ⟨"continuation_suggestion", 0, "end", some a.config.name,
              some (match pr with
                    | Except.ok c => c.trim
                    | Except.error _ => ""), false⟩] } := by
  unfold generate_continuation_question
  rw [h]

theorem getLast?_append_pair (l : List α) (x y : α) :
    (l ++ [x, y]).getLast? = some y := by
  have h : l ++ [x, y] = (l ++ [x]) ++ [y] := by simp
  rw [h]
  simp

theorem run_eq_no_cancel (st : DebateState) (env : RunEnv)
    (hpi : env.postIntro = false)
    (hc2 : (phase_intro (emit st "start" 0 "init" none none false)
        env.introTask).cancelled = false)
    (hA : (runRounds env
        (phase_intro (emit st "start" 0 "init" none none false) env.introTask)
        1
        (phase_intro (emit st "start" 0 "init" none none false)
          env.introTask).cfg.rounds).2 = false) :
    run st env =
      (generate_continuation_question
        (emit (phase_conclusion
            (runRounds env
              (phase_intro (emit st "start" 0 "init" none none false)
                env.introTask)
              1
              (phase_intro (emit st "start" 0 "init" none none false)
                env.introTask).cfg.rounds).1
            env.conclusionTask)
          "end" 0 "end" none none false)
        env.continuation,
       turnsMap (generate_continuation_question
        (emit (phase_conclusion
            (runRounds env
              (phase_intro (emit st "start" 0 "init" none none false)
                env.introTask)
              1
              (phase_intro (emit st "start" 0 "init" none none false)
                env.introTask).cfg.rounds).1
            env.conclusionTask)
          "end" 0 "end" none none false)
        env.continuation)) := by
  unfold run
  simp only [hpi, setFlag_false, hc2, hA, Bool.false_eq_true, if_false]

theorem run_no_cancel_spec (st : DebateState) (env : RunEnv) {L : Nat}
    (hnc : NoCancelEnv env) (hc : st.cancelled = false)
    (hL : st.leaderIdx = some L) (hlen : L < st.agents.length)
    (hR : 0 < st.cfg.rounds) :
    (run st env).2 = turnsMap (run st env).1 ∧
    (run st env).1.leaderIdx = some L ∧
    (run st env).1.agents.length = st.agents.length ∧
    (∀ i, agentConfigAt (run st env).1 i = agentConfigAt st i) ∧
    agentTurns (run st env).1 L =
      (agentTurns st L ++ ⟨0, "intro", taskContent env.introTask⟩
        :: (List.range st.cfg.rounds).map
            (fun k => ⟨k + 1, "leader_intervention", modContent env (k + 1)⟩))
      ++ [⟨st.cfg.rounds, "conclusion", taskContent env.conclusionTask⟩] ∧
    (∀ i, i < st.agents.length → i ≠ L →
      agentTurns (run st env).1 i =
        agentTurns st i ++ (List.range st.cfg.rounds).map
          (fun k => ⟨k + 1, "discussion", discContent env (k + 1) i⟩)) ∧
    (∀ c, agentConfigAt st L = some c →
      (run st env).1.events.getLast? =
        some ⟨"continuation_suggestion", 0, "end", some c.name,
          some (match env.continuation with
                | Except.ok s => s.trim
                | Except.error _ => ""), false⟩) := by
  obtain ⟨hpi, hpd, hpm⟩ := hnc
  set st1 : DebateState := emit st "start" 0 "init" none none false with hst1
  have hc1 : st1.cancelled = false := hc
  have hL1 : st1.leaderIdx = some L := hL
  have hlen1 : st1.agents.length = st.agents.length := rfl
  obtain ⟨a1, ha1⟩ := exists_getElem?_of_lt (l := st1.agents) (i := L)
    (by rw [hlen1]; exact hlen)
  have hla1 : leaderAgent? st1 = some (L, a1) := leaderAgent?_of st1 hL1 ha1
  set st2 : DebateState := phase_intro st1 env.introTask with hst2
  have hc2 : st2.cancelled = false := by
    rw [hst2, phase_intro_cancelled]; exact hc1
  have hL2 : st2.leaderIdx = some L := by
    rw [hst2, phase_intro_leaderIdx]; exact hL1
  have hlen2 : st2.agents.length = st.agents.length := by
    rw [hst2, phase_intro_agents_length]
    exact hlen1
  have hcfg2 : st2.cfg = st.cfg := by
    rw [hst2, phase_intro_cfg]
    rfl
  obtain ⟨hA, hB, hC, hD, hE, hF, hG, hH, hI⟩ :=
    runRounds_no_cancel env hpd hpm st2.cfg.rounds st2 1 hc2 hL2
      (by rw [hlen2]; exact hlen)
  set p1 : DebateState := (runRounds env st2 1 st2.cfg.rounds).1 with hp1
  set st4 : DebateState := phase_conclusion p1 env.conclusionTask with hst4
  set st5 : DebateState := emit st4 "end" 0 "end" none none false with hst5
  set st6 : DebateState :=
    generate_continuation_question st5 env.continuation with hst6
  have hrun : run st env = (st6, turnsMap st6) := by
    have h := run_eq_no_cancel st env hpi
      (by rw [← hst1, ← hst2]; exact hc2)
      (by rw [← hst1, ← hst2]; exact hA)
    rw [← hst1, ← hst2, ← hp1, ← hst4, ← hst5, ← hst6] at h
    exact h
  have hlenp1 : p1.agents.length = st.agents.length := by
    rw [hp1, hD, hlen2]
  obtain ⟨aP, haP⟩ := exists_getElem?_of_lt (l := p1.agents) (i := L)
    (by rw [hlenp1]; exact hlen)
  have hlaP : leaderAgent? p1 = some (L, aP) :=
    leaderAgent?_of p1 (by rw [hp1]; exact hC) haP
  have hcr : p1.current_round = st.cfg.rounds := by
    rw [hp1, hI, hcfg2, if_neg (by omega : ¬ st.cfg.rounds = 0)]
    omega
  have hL4 : st4.leaderIdx = some L := by
    rw [hst4, phase_conclusion_leaderIdx, hp1]; exact hC
  have hlen4 : st4.agents.length = st.agents.length := by
    rw [hst4]
    unfold phase_conclusion
    rw [hlaP]
    simpa using hlenp1
  obtain ⟨a4, ha4⟩ := exists_getElem?_of_lt (l := st4.agents) (i := L)
    (by rw [hlen4]; exact hlen)
  have hla4 : leaderAgent? st4 = some (L, a4) := leaderAgent?_of st4 hL4 ha4
  have hla5 : leaderAgent? st5 = some (L, a4) := hla4
  have hagents6 : st6.agents = st5.agents := by
    rw [hst6, generate_continuation_question_agents]
  -- turn lists of the final state
  have hturnsL : agentTurns st6 L =
      (agentTurns st L ++ ⟨0, "intro", taskContent env.introTask⟩
        :: (List.range st.cfg.rounds).map
            (fun k => ⟨k + 1, "leader_intervention", modContent env (k + 1)⟩))
      ++ [⟨st.cfg.rounds, "conclusion", taskContent env.conclusionTask⟩] := by
    rw [agentTurns_of_agents_eq hagents6 L]
    have h5 : agentTurns st5 L = agentTurns st4 L := rfl
    rw [h5, hst4, phase_conclusion_turns_leader env.conclusionTask hlaP]
    have hb : p1.cancelled = false := by rw [hp1]; exact hB
    rw [hb, phaseContent_false, hcr]
    congr 1
    rw [hp1, hG]
    have h2turns : agentTurns st2 L =
        agentTurns st L ++ [⟨0, "intro", taskContent env.introTask⟩] := by
      rw [hst2, phase_intro_turns_leader env.introTask hla1]
      have h1 : agentTurns st1 L = agentTurns st L := rfl
      rw [h1, hc1, phaseContent_false]
    rw [h2turns, hcfg2, List.append_assoc]
    congr 1
    simp only [List.singleton_append]
    congr 1
    apply List.map_congr_left
    intro k _
    have h : 1 + k = k + 1 := by omega
    rw [h]
  have hturnsNe : ∀ i, i < st.agents.length → i ≠ L →
      agentTurns st6 i =
        agentTurns st i ++ (List.range st.cfg.rounds).map
          (fun k => ⟨k + 1, "discussion", discContent env (k + 1) i⟩) := by
    intro i hi hne
    rw [agentTurns_of_agents_eq hagents6 i]
    have h5 : agentTurns st5 i = agentTurns st4 i := rfl
    have hne4 : ∀ L' a', leaderAgent? p1 = some (L', a') → i ≠ L' := by
      intro L' a' hla'
      rw [hlaP] at hla'
      simp only [Option.some.injEq, Prod.mk.injEq] at hla'
      rw [← hla'.1]
      exact hne
    rw [h5, hst4, phase_conclusion_turns_ne env.conclusionTask hne4,
      hp1, hH i (by rw [hlen2]; exact hi) hne]
    have h2t : agentTurns st2 i = agentTurns st i := by
      rw [hst2]
      apply phase_intro_turns_ne
      intro L' a' hla'
      rw [hla1] at hla'
      simp only [Option.some.injEq, Prod.mk.injEq] at hla'
      rw [← hla'.1]
      exact hne
    rw [h2t, hcfg2]
    congr 1
    apply List.map_congr_left
    intro k _
    have h : 1 + k = k + 1 := by omega
    rw [h]
  have hconfigs : ∀ i, agentConfigAt st6 i = agentConfigAt st i := by
    intro i
    rw [agentConfigAt_of_agents_eq hagents6 i]
    have h5 : agentConfigAt st5 i = agentConfigAt st4 i := rfl
    rw [h5, hst4, phase_conclusion_configAt, hp1, hF i, hst2,
      phase_intro_configAt]
    rfl
  have hfin2 : st6.leaderIdx = some L := by
    rw [hst6, generate_continuation_question_leaderIdx]
    exact (leaderAgent?_eq_some hla5).1
  have hfin3 : st6.agents.length = st.agents.length := by
    rw [hagents6]
    show st4.agents.length = st.agents.length
    exact hlen4
  have hfin7 : ∀ c, agentConfigAt st L = some c →
      st6.events.getLast? =
        some ⟨"continuation_suggestion", 0, "end", some c.name,
          some (match env.continuation with
                | Except.ok s => s.trim
                | Except.error _ => ""), false⟩ := by
    intro c hcf
    have h6 : agentConfigAt st6 L = some a4.config := by
      rw [agentConfigAt_of_agents_eq hagents6 L]
      show agentConfigAt st4 L = some a4.config
      unfold agentConfigAt
      rw [ha4]
      rfl
    have ha4c : a4.config = c := by
      have h := hconfigs L
      rw [h6, hcf] at h
      exact Option.some.inj h
    rw [hst6, generate_continuation_question_spec env.continuation hla5, ha4c]
    simp only [getLast?_append_pair]
  rw [hrun]
  exact ⟨rfl, hfin2, hfin3, hconfigs, hturnsL, hturnsNe, hfin7⟩

/-! ### Lemmas about initialization -/

theorem lastLeaderIdxFrom_bounds :
    ∀ (n : Nat) (l : List AgentConfig) (j : Nat),
      lastLeaderIdxFrom n l = some j → n ≤ j ∧ j < n + l.length
  | n, [], j => by
      intro h
      simp [lastLeaderIdxFrom] at h
  | n, c :: rest, j => by
      intro h
      unfold lastLeaderIdxFrom at h
      rcases hr : lastLeaderIdxFrom (n + 1) rest with _ | k <;> rw [hr] at h
      · by_cases hcl : c.is_leader = true
        · rw [if_pos hcl] at h
          injection h with h'
          subst h'
          simp only [List.length_cons]
          omega
        · rw [if_neg hcl] at h
          exact absurd h (by simp)
      · injection h with h'
        have hb := lastLeaderIdxFrom_bounds (n + 1) rest k hr
        subst h'
        simp only [List.length_cons]
        omega

theorem initDebate_cancelled (mc : MeetingConfigL) :
    (initDebate mc).cancelled = false := rfl

theorem initDebate_cfg (mc : MeetingConfigL) :
    (initDebate mc).cfg = mc.debate := rfl

theorem initDebate_agents_length (mc : MeetingConfigL) :
    (initDebate mc).agents.length = mc.agent_configs.length := by
  unfold initDebate
  simp

theorem initDebate_turns (mc : MeetingConfigL) (i : Nat) :
    agentTurns (initDebate mc) i = [] := by
  unfold agentTurns initDebate mkAgent
  simp only [List.getElem?_map]
  rcases mc.agent_configs[i]? with _ | c <;> rfl

theorem initDebate_history (mc : MeetingConfigL) (i : Nat) :
    agentHistory (initDebate mc) i = [] := by
  unfold agentHistory initDebate mkAgent
  simp only [List.getElem?_map]
  rcases mc.agent_configs[i]? with _ | c <;> rfl

theorem initDebate_leader (mc : MeetingConfigL) (h : mc.agent_configs ≠ []) :
    ∃ L, (initDebate mc).leaderIdx = some L ∧
      L < (initDebate mc).agents.length := by
  have hlen : (initDebate mc).agents.length = mc.agent_configs.length :=
    initDebate_agents_length mc
  have hli : (initDebate mc).leaderIdx =
      match lastLeaderIdxFrom 0 mc.agent_configs with
      | some i => some i
      | none =>
          if (mc.agent_configs.map mkAgent).isEmpty then none else some 0 := rfl
  rcases hl : lastLeaderIdxFrom 0 mc.agent_configs with _ | j
  · refine ⟨0, ?_, ?_⟩
    · rw [hli, hl]
      simp only [List.isEmpty_eq_true, List.map_eq_nil_iff]
      rw [if_neg h]
    · rw [hlen]
      exact List.length_pos.mpr h
  · have hb := lastLeaderIdxFrom_bounds 0 mc.agent_configs j hl
    refine ⟨j, ?_, ?_⟩
    · rw [hli, hl]
    · rw [hlen]
      omega

/-! ### Claim theorems -/

/-- C4: for every configuration with a non-empty agent list and `R ≥ 1`
rounds, a run that completes without cancellation and without generation
errors records exactly one round-0 opening turn, `R` moderation turns
(rounds 1..R) and one closing turn for the moderator, exactly `R`
discussion turns (rounds 1..R) for every non-moderator participant, and
returns the full per-participant turn map. -/
theorem run_clean_turn_shape (mc : MeetingConfigL) (env : RunEnv)
    (hne : mc.agent_configs ≠ []) (hR : 0 < mc.debate.rounds)
    (hclean : CleanEnv env) :
    ∃ L, (initDebate mc).leaderIdx = some L ∧
      ((agentTurns (run (initDebate mc) env).1 L).map turnPair =
        (0, "intro")
          :: (List.range mc.debate.rounds).map
              (fun k => (k + 1, "leader_intervention"))
          ++ [(mc.debate.rounds, "conclusion")]) ∧
      (∀ i, i < mc.agent_configs.length → i ≠ L →
        (agentTurns (run (initDebate mc) env).1 i).map turnPair =
          (List.range mc.debate.rounds).map (fun k => (k + 1, "discussion"))) ∧
      (run (initDebate mc) env).2 = turnsMap (run (initDebate mc) env).1 := by
  obtain ⟨L, hL, hlen⟩ := initDebate_leader mc hne
  obtain ⟨h1, h2, h3, h4, h5, h6, h7⟩ :=
    run_no_cancel_spec (initDebate mc) env hclean.1 rfl hL hlen
      (by rw [initDebate_cfg]; exact hR)
  refine ⟨L, hL, ?_, ?_, h1⟩
  · rw [h5, initDebate_turns, initDebate_cfg]
    simp only [List.nil_append, List.map_append, List.map_cons, List.map_map,
      List.map_nil]
    rfl
  · intro i hi hneL
    rw [h6 i (by rw [initDebate_agents_length]; exact hi) hneL,
      initDebate_turns, initDebate_cfg]
    simp only [List.nil_append, List.map_map]
    rfl

/-! ### A cancelled run never reaches the follow-up step -/

theorem mem_mapIdxFrom {f : Nat → α → β} {b : β} :
    ∀ {n : Nat} {l : List α}, b ∈ mapIdxFrom f n l → ∃ i a, a ∈ l ∧ b = f i a := by
  intro n l
  induction l generalizing n with
  | nil => intro h; simp [mapIdxFrom] at h
  | cons a as ih =>
      intro h
      rcases List.mem_cons.mp h with h1 | h1
      · exact ⟨n, a, List.mem_cons_self a as, h1⟩
      · obtain ⟨i, x, hx, hb⟩ := ih h1
        exact ⟨i, x, List.mem_cons_of_mem a hx, hb⟩

theorem noFollowupTail_rfl (st : DebateState) : NoFollowupTail st st :=
  ⟨[], by simp, by simp⟩

theorem noFollowupTail_trans {st1 st2 st3 : DebateState}
    (h12 : NoFollowupTail st1 st2) (h23 : NoFollowupTail st2 st3) :
    NoFollowupTail st1 st3 := by
  obtain ⟨t1, he1, ht1⟩ := h12
  obtain ⟨t2, he2, ht2⟩ := h23
  refine ⟨t1 ++ t2, by rw [he2, he1, List.append_assoc], ?_⟩
  intro e he
  rcases List.mem_append.mp he with h | h
  · exact ht1 e h
  · exact ht2 e h

theorem emit_noFollowup (st : DebateState) (t : String) (r : Nat) (p : String)
    (an : Option String) (c : Option String) (b : Bool)
    (ht : t ≠ "continuation_suggestion") :
    NoFollowupTail st (emit st t r p an c b) := by
  refine ⟨_, rfl, ?_⟩
  intro e he
  rcases List.mem_singleton.mp he with rfl
  exact ht

theorem setFlag_noFollowup (st : DebateState) (b : Bool) :
    NoFollowupTail st (setFlag st b) :=
  ⟨[], by simp [setFlag], by simp⟩

theorem phase_intro_noFollowup (st : DebateState) (env : TaskEnv) :
    NoFollowupTail st (phase_intro st env) := by
  unfold phase_intro
  rcases h : leaderAgent? st with _ | ⟨L, a⟩
  · exact ⟨_, rfl, by simp⟩
  · exact ⟨_, rfl, by
      intro e he
      simp only [List.mem_cons, chunkEvents, List.mem_append, List.mem_map,
        List.mem_singleton] at he
      rcases he with (rfl | rfl | rfl | ⟨c, hc, rfl⟩) | rfl | h0 <;> simp_all⟩

theorem discussionStep_events_types (st : DebateState) (env : DiscussionEnv)
    (r i : Nat) (a : Agent) :
    ∀ e ∈ (discussionStep st env r i a).2.2,
      e.type ≠ "continuation_suggestion" := by
  unfold discussionStep
  split
  · simp
  · intro e he
    simp only [List.mem_cons, chunkEvents, List.mem_append, List.mem_map,
      List.mem_singleton] at he
    rcases he with (rfl | ⟨c, hc, rfl⟩) | rfl | h0 <;> simp_all

theorem phase_discussion_noFollowup (st : DebateState) (env : DiscussionEnv)
    (r : Nat) : NoFollowupTail st (phase_discussion st env r) := by
  refine ⟨_, rfl, ?_⟩
  intro e he
  rcases List.mem_cons.mp he with h1 | he
  · subst h1; simp
  · obtain ⟨l, hl, hel⟩ := List.mem_flatten.mp he
    obtain ⟨p, hp, hlp⟩ := List.mem_map.mp hl
    obtain ⟨i, a, _, hpf⟩ := mem_mapIdxFrom hp
    subst hlp
    subst hpf
    exact discussionStep_events_types st env r i a e hel

theorem leader_intervention_noFollowup (st : DebateState) (env : TaskEnv)
    (r : Nat) : NoFollowupTail st (leader_intervention st env r) := by
  unfold leader_intervention
  rcases h : leaderAgent? st with _ | ⟨L, a⟩
  · exact noFollowupTail_rfl st
  · exact ⟨_, rfl, by
      intro e he
      simp only [List.mem_cons, chunkEvents, List.mem_append, List.mem_map,
        List.mem_singleton] at he
      rcases he with (rfl | rfl | ⟨c, hc, rfl⟩) | rfl | h0 <;> simp_all⟩

theorem phase_conclusion_noFollowup (st : DebateState) (env : TaskEnv) :
    NoFollowupTail st (phase_conclusion st env) := by
  unfold phase_conclusion
  rcases h : leaderAgent? st with _ | ⟨L, a⟩
  · exact ⟨_, rfl, by simp⟩
  · exact ⟨_, rfl, by
      intro e he
      simp only [List.mem_cons, chunkEvents, List.mem_append, List.mem_map,
        List.mem_singleton] at he
      rcases he with (rfl | rfl | rfl | ⟨c, hc, rfl⟩) | rfl | h0 <;> simp_all⟩

theorem currentRound_noFollowup (st : DebateState) (r : Nat) :
    NoFollowupTail st { st with current_round := r } :=
  ⟨[], by simp, by simp⟩

theorem runRounds_cancel_at (env : RunEnv) {L : Nat} (rc : Nat)
    (hpd : ∀ r, r < rc → env.postDisc r = false)
    (hpm : ∀ r, r < rc → env.postMod r = false)
    (hcd : env.postDisc rc = true) :
    ∀ (m : Nat) (st : DebateState) (r : Nat),
      st.cancelled = false → st.leaderIdx = some L → L < st.agents.length →
      r ≤ rc → rc < r + m →
      (runRounds env st r m).2 = true ∧
      (runRounds env st r m).1.leaderIdx = some L ∧
      (runRounds env st r m).1.agents.length = st.agents.length ∧
      agentTurns (runRounds env st r m).1 L =
        agentTurns st L ++ (List.range (rc - r)).map
          (fun k => ⟨r + k, "leader_intervention", modContent env (r + k)⟩) ∧
      (∀ i, i < st.agents.length → i ≠ L →
        agentTurns (runRounds env st r m).1 i =
          agentTurns st i ++ (List.range (rc - r + 1)).map
            (fun k => ⟨r + k, "discussion", discContent env (r + k) i⟩)) ∧
      NoFollowupTail st (runRounds env st r m).1 := by
  intro m
  induction m with
  | zero =>
      intro st r hc hL hlen hr1 hr2
      omega
  | succ m ih =>
      intro st r hc hL hlen hr1 hr2
      set st1 : DebateState := { st with current_round := r } with hst1
      set st2 : DebateState := phase_discussion st1 (env.discTasks r) r with hst2
      have hc2 : st2.cancelled = false := by
        rw [hst2, phase_discussion_cancelled]; exact hc
      have hL2 : st2.leaderIdx = some L := by
        rw [hst2, phase_discussion_leaderIdx]; exact hL
      have hlen2 : st2.agents.length = st.agents.length := by
        rw [hst2, phase_discussion_agents_length]
      have hturnsL2 : agentTurns st2 L = agentTurns st L := by
        rw [hst2, phase_discussion_turns_leader st1 (env.discTasks r) r
          (by show st.leaderIdx = some L; exact hL)]
        rfl
      have hturns2 : ∀ i, i < st.agents.length → i ≠ L →
          agentTurns st2 i =
            agentTurns st i ++ [⟨r, "discussion", discContent env r i⟩] := by
        intro i hi hne
        rw [hst2, phase_discussion_turns_ne st1 (env.discTasks r) r
          (by show i < st.agents.length; exact hi)
          (by show ¬ st.leaderIdx = some i
              intro hcon
              rw [hL] at hcon
              exact hne (by injection hcon with h; exact h.symm))]
        have h1 : agentTurns st1 i = agentTurns st i := rfl
        have h2 : st1.cancelled = false := hc
        rw [h1, h2]
        rfl
      have hnf2 : NoFollowupTail st st2 := by
        rw [hst2]
        exact noFollowupTail_trans (currentRound_noFollowup st r)
          (phase_discussion_noFollowup st1 (env.discTasks r) r)
      by_cases hrcr : r = rc
      · -- the flag is observed at the check right after this discussion phase
        subst hrcr
        have hstop : (setFlag st2 (env.postDisc r)).cancelled = true := by
          rw [setFlag_cancelled, hcd, Bool.or_true]
        have hrun : runRounds env st r (m + 1) = (setFlag st2 (env.postDisc r), true) := by
          rw [runRounds]
          rw [← hst1, ← hst2]
          simp only [hstop, if_true]
        rw [hrun]
        have hsf : setFlag st2 (env.postDisc r) = setFlag st2 true := by rw [hcd]
        refine ⟨rfl, ?_, ?_, ?_, ?_, ?_⟩
        · show (setFlag st2 (env.postDisc r)).leaderIdx = some L
          exact hL2
        · show (setFlag st2 (env.postDisc r)).agents.length = st.agents.length
          exact hlen2
        · show agentTurns (setFlag st2 (env.postDisc r)) L = _
          have : agentTurns (setFlag st2 (env.postDisc r)) L = agentTurns st2 L := rfl
          rw [this, hturnsL2]
          simp
        · intro i hi hne
          show agentTurns (setFlag st2 (env.postDisc r)) i = _
          have : agentTurns (setFlag st2 (env.postDisc r)) i = agentTurns st2 i := rfl
          rw [this, hturns2 i hi hne]
          have h1 : List.range 1 = [0] := rfl
          simp [h1]
        · exact noFollowupTail_trans hnf2
            (setFlag_noFollowup st2 (env.postDisc r))
      · -- this round completes; the loop continues
        have hrlt : r < rc := by omega
        set st4 : DebateState := leader_intervention st2 (env.modTask r) r with hst4
        have hc4 : st4.cancelled = false := by
          rw [hst4, leader_intervention_cancelled]; exact hc2
        have hL4 : st4.leaderIdx = some L := by
          rw [hst4, leader_intervention_leaderIdx]; exact hL2
        have hlen4 : st4.agents.length = st.agents.length := by
          rw [hst4, leader_intervention_agents_length, hlen2]
        obtain ⟨a2, ha2⟩ := exists_getElem?_of_lt (l := st2.agents) (i := L)
          (by rw [hlen2]; exact hlen)
        have hla2 : leaderAgent? st2 = some (L, a2) := leaderAgent?_of st2 hL2 ha2
        have heq : runRounds env st r (m + 1) = runRounds env st4 (r + 1) m := by
          have h := runRounds_succ_no_cancel env st r m hc (hpd r hrlt) (hpm r hrlt)
          rw [← hst1, ← hst2, ← hst4] at h
          exact h
        obtain ⟨ihA, ihB, ihC, ihD, ihE, ihF⟩ :=
          ih st4 (r + 1) hc4 hL4 (by rw [hlen4]; exact hlen)
            (by omega) (by omega)
        rw [heq]
        have hturnsL4 : agentTurns st4 L =
            agentTurns st L ++ [⟨r, "leader_intervention", modContent env r⟩] := by
          rw [hst4, leader_intervention_turns_leader (env.modTask r) r hla2,
            hturnsL2, hc2]
          rfl
        have hturns4 : ∀ i, i < st.agents.length → i ≠ L →
            agentTurns st4 i =
              agentTurns st i ++ [⟨r, "discussion", discContent env r i⟩] := by
          intro i hi hne
          have hne2 : ∀ L' a', leaderAgent? st2 = some (L', a') → i ≠ L' := by
            intro L' a' hla'
            rw [hla2] at hla'
            simp only [Option.some.injEq, Prod.mk.injEq] at hla'
            rw [← hla'.1]
            exact hne
          rw [hst4, leader_intervention_turns_ne (env.modTask r) r hne2,
            hturns2 i hi hne]
        refine ⟨ihA, ihB, by rw [ihC, hlen4], ?_, ?_, ?_⟩
        · rw [ihD, hturnsL4, List.append_assoc]
          congr 1
          have hmap : (List.range (rc - (r + 1))).map
              (fun k => (⟨r + 1 + k, "leader_intervention",
                modContent env (r + 1 + k)⟩ : Turn)) =
              (List.range (rc - (r + 1))).map
              (fun k => (⟨r + (k + 1), "leader_intervention",
                modContent env (r + (k + 1))⟩ : Turn)) := by
            apply List.map_congr_left
            intro k _
            have h : r + 1 + k = r + (k + 1) := by omega
            rw [h]
          rw [hmap]
          have hrc : rc - r = (rc - (r + 1)) + 1 := by omega
          rw [hrc]
          exact cons_range_map
            (fun k => (⟨r + k, "leader_intervention", modContent env (r + k)⟩ : Turn))
            (rc - (r + 1))
        · intro i hi hne
          rw [ihE i (by rw [hlen4]; exact hi) hne, hturns4 i hi hne,
            List.append_assoc]
          congr 1
          have hmap : (List.range (rc - (r + 1) + 1)).map
              (fun k => (⟨r + 1 + k, "discussion",
                discContent env (r + 1 + k) i⟩ : Turn)) =
              (List.range (rc - (r + 1) + 1)).map
              (fun k => (⟨r + (k + 1), "discussion",
                discContent env (r + (k + 1)) i⟩ : Turn)) := by
            apply List.map_congr_left
            intro k _
            have h : r + 1 + k = r + (k + 1) := by omega
            rw [h]
          rw [hmap]
          have hrc : rc - r + 1 = (rc - (r + 1) + 1) + 1 := by omega
          rw [hrc]
          exact cons_range_map
            (fun k => (⟨r + k, "discussion", discContent env (r + k) i⟩ : Turn))
            (rc - (r + 1) + 1)
        · refine noFollowupTail_trans ?_ ihF
          refine noFollowupTail_trans hnf2 ?_
          rw [hst4]
          exact leader_intervention_noFollowup st2 (env.modTask r) r

theorem run_eq_cancel_loop (st : DebateState) (env : RunEnv)
    (hpi : env.postIntro = false)
    (hc2 : (phase_intro (emit st "start" 0 "init" none none false)
        env.introTask).cancelled = false)
    (hA : (runRounds env
        (phase_intro (emit st "start" 0 "init" none none false) env.introTask)
        1
        (phase_intro (emit st "start" 0 "init" none none false)
          env.introTask).cfg.rounds).2 = true) :
    run st env =
      ((runRounds env
          (phase_intro (emit st "start" 0 "init" none none false) env.introTask)
          1
          (phase_intro (emit st "start" 0 "init" none none false)
            env.introTask).cfg.rounds).1,
       turnsMap (runRounds env
          (phase_intro (emit st "start" 0 "init" none none false) env.introTask)
          1
          (phase_intro (emit st "start" 0 "init" none none false)
            env.introTask).cfg.rounds).1) := by
  unfold run
  simp only [hpi, setFlag_false, hc2, hA, Bool.false_eq_true, if_false, if_true]

/-- C5: if the cancellation flag is set during DISCUSSION(rc) (observed at
the check directly after that phase, all earlier checks clear), `run`
returns the partial per-participant turn map: the moderator has its opening
turn and exactly the moderation turns of rounds 1..rc-1 (none for round rc,
no closing turn), every other participant has exactly its discussion turns
of rounds 1..rc, and no follow-up suggestion event is ever emitted.  `run`
is a total function here: the cancellation path returns, it never raises. -/
theorem run_cancel_during_discussion (mc : MeetingConfigL) (env : RunEnv)
    (rc : Nat) (hne : mc.agent_configs ≠ [])
    (hrc1 : 1 ≤ rc) (hrc2 : rc ≤ mc.debate.rounds)
    (hpi : env.postIntro = false)
    (hpd : ∀ r, r < rc → env.postDisc r = false)
    (hpm : ∀ r, r < rc → env.postMod r = false)
    (hcd : env.postDisc rc = true) :
    ∃ L, (initDebate mc).leaderIdx = some L ∧
      (run (initDebate mc) env).2 = turnsMap (run (initDebate mc) env).1 ∧
      ((agentTurns (run (initDebate mc) env).1 L).map turnPair =
        (0, "intro") :: (List.range (rc - 1)).map
          (fun k => (k + 1, "leader_intervention"))) ∧
      (∀ i, i < mc.agent_configs.length → i ≠ L →
        (agentTurns (run (initDebate mc) env).1 i).map turnPair =
          (List.range rc).map (fun k => (k + 1, "discussion"))) ∧
      (∀ e ∈ (run (initDebate mc) env).1.events,
        e.type ≠ "continuation_suggestion") := by
  obtain ⟨L, hL, hlen⟩ := initDebate_leader mc hne
  set st : DebateState := initDebate mc with hst
  set st1 : DebateState := emit st "start" 0 "init" none none false with hst1
  have hc1 : st1.cancelled = false := initDebate_cancelled mc
  have hL1 : st1.leaderIdx = some L := hL
  set st2 : DebateState := phase_intro st1 env.introTask with hst2
  have hc2 : st2.cancelled = false := by
    rw [hst2, phase_intro_cancelled]; exact hc1
  have hL2 : st2.leaderIdx = some L := by
    rw [hst2, phase_intro_leaderIdx]; exact hL1
  have hlen2 : st2.agents.length = st.agents.length := by
    rw [hst2, phase_intro_agents_length]
    rfl
  have hcfg2 : st2.cfg.rounds = mc.debate.rounds := by
    rw [hst2, phase_intro_cfg]
    rfl
  obtain ⟨hA, hB, hC, hD, hE, hF⟩ :=
    runRounds_cancel_at env rc hpd hpm hcd st2.cfg.rounds st2 1 hc2 hL2
      (by rw [hlen2]; exact hlen) hrc1 (by rw [hcfg2]; omega)
  have hrun : run st env = ((runRounds env st2 1 st2.cfg.rounds).1,
      turnsMap (runRounds env st2 1 st2.cfg.rounds).1) := by
    have h := run_eq_cancel_loop st env hpi
      (by rw [← hst1, ← hst2]; exact hc2)
      (by rw [← hst1, ← hst2]; exact hA)
    rw [← hst1, ← hst2] at h
    exact h
  obtain ⟨a1, ha1⟩ := exists_getElem?_of_lt (l := st1.agents) (i := L) hlen
  have hla1 : leaderAgent? st1 = some (L, a1) := leaderAgent?_of st1 hL1 ha1
  have hturnsL2 : agentTurns st2 L =
      [⟨0, "intro", taskContent env.introTask⟩] := by
    rw [hst2, phase_intro_turns_leader env.introTask hla1]
    have h0 : agentTurns st1 L = [] := initDebate_turns mc L
    rw [h0, hc1, phaseContent_false]
    rfl
  have hturns2ne : ∀ i, i ≠ L → agentTurns st2 i = agentTurns st i := by
    intro i hne2
    rw [hst2]
    apply phase_intro_turns_ne
    intro L' a' hla'
    rw [hla1] at hla'
    simp only [Option.some.injEq, Prod.mk.injEq] at hla'
    rw [← hla'.1]
    exact hne2
  refine ⟨L, hL, by rw [hrun], ?_, ?_, ?_⟩
  · rw [hrun]
    show (agentTurns (runRounds env st2 1 st2.cfg.rounds).1 L).map turnPair = _
    rw [hD, hturnsL2]
    simp only [List.singleton_append, List.map_cons, List.map_map]
    have hpair : turnPair ⟨0, "intro", taskContent env.introTask⟩ = (0, "intro") := rfl
    rw [hpair]
    congr 1
    apply List.map_congr_left
    intro k _
    show turnPair ⟨1 + k, "leader_intervention", modContent env (1 + k)⟩ = _
    unfold turnPair
    simp only
    congr 1
    omega
  · intro i hi hne2
    rw [hrun]
    show (agentTurns (runRounds env st2 1 st2.cfg.rounds).1 i).map turnPair = _
    rw [hE i (by rw [hlen2, hst, initDebate_agents_length]; exact hi) hne2,
      hturns2ne i hne2]
    have h0 : agentTurns st i = [] := initDebate_turns mc i
    rw [h0]
    simp only [List.nil_append, List.map_map]
    have hrc : rc - 1 + 1 = rc := by omega
    rw [hrc]
    apply List.map_congr_left
    intro k _
    show turnPair ⟨1 + k, "discussion", discContent env (1 + k) i⟩ = _
    unfold turnPair
    simp only
    congr 1
    omega
  · intro e he
    rw [hrun] at he
    have hnf : NoFollowupTail st (runRounds env st2 1 st2.cfg.rounds).1 :=
      noFollowupTail_trans
        (noFollowupTail_trans
          (emit_noFollowup st "start" 0 "init" none none false (by decide))
          (phase_intro_noFollowup st1 env.introTask))
        hF
    obtain ⟨tail, hev, htail⟩ := hnf
    rw [hev] at he
    rcases List.mem_append.mp he with h1 | h1
    · have h0 : st.events = [] := rfl
      rw [h0] at h1
      simp at h1
    · exact htail e h1

/-- C6: in a run without cancellation, a discussion task whose generation
capability raises (before yielding `prior` fragments were all consumed)
records the visible `[Error: ...]` placeholder as that participant's
round-`r0` turn; every sibling participant still records one turn per
round; and the session still reaches MODERATION(r0) — the moderator's
round-`r0` intervention turn is produced — instead of aborting. -/
theorem discussion_error_recovered (mc : MeetingConfigL) (env : RunEnv)
    (r0 i0 : Nat) (prior : List String) (emsg : String)
    (hne : mc.agent_configs ≠ []) (hr0 : 1 ≤ r0)
    (hr0R : r0 ≤ mc.debate.rounds) (hnc : NoCancelEnv env)
    (htask : (env.discTasks r0).tasks i0 = ⟨GenResult.err prior emsg, none⟩)
    (hi0 : i0 < mc.agent_configs.length) :
    ∃ L, (initDebate mc).leaderIdx = some L ∧
      (i0 ≠ L →
        (⟨r0, "discussion", "[Error: " ++ emsg ++ "]"⟩ : Turn) ∈
          agentTurns (run (initDebate mc) env).1 i0) ∧
      (∀ j, j < mc.agent_configs.length → j ≠ L →
        (agentTurns (run (initDebate mc) env).1 j).length = mc.debate.rounds) ∧
      (⟨r0, "leader_intervention", modContent env r0⟩ : Turn) ∈
        agentTurns (run (initDebate mc) env).1 L := by
  obtain ⟨L, hL, hlen⟩ := initDebate_leader mc hne
  obtain ⟨h1, h2, h3, h4, h5, h6, h7⟩ :=
    run_no_cancel_spec (initDebate mc) env hnc rfl hL hlen
      (by rw [initDebate_cfg]; omega)
  have hlen0 : (initDebate mc).agents.length = mc.agent_configs.length :=
    initDebate_agents_length mc
  refine ⟨L, hL, ?_, ?_, ?_⟩
  · intro hneL
    rw [h6 i0 (by rw [hlen0]; exact hi0) hneL, initDebate_turns]
    have hcontent : discContent env r0 i0 = "[Error: " ++ emsg ++ "]" := by
      unfold discContent taskContent
      rw [htask]
      rfl
    rw [List.nil_append]
    apply List.mem_map.mpr
    refine ⟨r0 - 1, List.mem_range.mpr (by rw [initDebate_cfg] at *; omega), ?_⟩
    have hr : r0 - 1 + 1 = r0 := by omega
    rw [hr, hcontent]
  · intro j hj hneL
    rw [h6 j (by rw [hlen0]; exact hj) hneL, initDebate_turns,
      List.nil_append, List.length_map, List.length_range, initDebate_cfg]
  · rw [h5, initDebate_turns, initDebate_cfg]
    simp only [List.nil_append]
    apply List.mem_append.mpr
    left
    apply List.mem_cons.mpr
    right
    apply List.mem_map.mpr
    refine ⟨r0 - 1, List.mem_range.mpr (by omega), ?_⟩
    show (⟨r0 - 1 + 1, "leader_intervention", modContent env (r0 - 1 + 1)⟩ : Turn) = _
    have hr : r0 - 1 + 1 = r0 := by omega
    rw [hr]

/-- C7: the FOLLOWUP step is a one-shot generation that never mutates any
participant (in particular the moderator's conversation history and turns
are untouched), and when the provider call raises, the failure is
swallowed: the session still completes, emitting as its final event a
continuation_suggestion carrying the empty string. -/
theorem followup_nonmutating_and_failure_swallowed :
    (∀ (st : DebateState) (pr : Except String String),
      (generate_continuation_question st pr).agents = st.agents) ∧
    (∀ (mc : MeetingConfigL) (env : RunEnv) (emsg : String),
      mc.agent_configs ≠ [] → 0 < mc.debate.rounds → NoCancelEnv env →
      env.continuation = Except.error emsg →
      ∃ L c, (initDebate mc).leaderIdx = some L ∧
        agentConfigAt (initDebate mc) L = some c ∧
        (run (initDebate mc) env).1.events.getLast? =
          some ⟨"continuation_suggestion", 0, "end", some c.name,
            some "", false⟩ ∧
        (run (initDebate mc) env).2 = turnsMap (run (initDebate mc) env).1) := by
  constructor
  · exact generate_continuation_question_agents
  · intro mc env emsg hne hR hnc hcont
    obtain ⟨L, hL, hlen⟩ := initDebate_leader mc hne
    obtain ⟨h1, h2, h3, h4, h5, h6, h7⟩ :=
      run_no_cancel_spec (initDebate mc) env hnc rfl hL hlen
        (by rw [initDebate_cfg]; exact hR)
    obtain ⟨a, ha⟩ := exists_getElem?_of_lt hlen
    have hcfga : agentConfigAt (initDebate mc) L = some a.config := by
      unfold agentConfigAt
      rw [ha]
      rfl
    refine ⟨L, a.config, hL, hcfga, ?_, h1⟩
    have h := h7 a.config hcfga
    rw [hcont] at h
    exact h

/-! ### A run always executes the OPENING phase (claim C1) -/

theorem leaderTurns_eq_agentTurns {st : DebateState} {L : Nat}
    (hL : st.leaderIdx = some L) :
    leaderTurns st = agentTurns st L := by
  unfold leaderTurns agentTurns leaderAgent?
  rw [hL]
  rcases h : st.agents[L]? with _ | a <;> simp only [h]

theorem countIntro_append_turn (ts : List Turn) (rn : Nat) (ph c : String)
    (h : ((rn == 0) && (ph == "intro")) = false) :
    countIntroTurns (ts ++ [⟨rn, ph, c⟩]) = countIntroTurns ts := by
  unfold countIntroTurns
  rw [List.countP_append]
  simp [List.countP_cons, h]

theorem countIntro_phase_discussion (st : DebateState) (env : DiscussionEnv)
    (r : Nat) {L : Nat} (hL : st.leaderIdx = some L) :
    countIntroTurns (agentTurns (phase_discussion st env r) L) =
      countIntroTurns (agentTurns st L) := by
  rw [phase_discussion_turns_leader st env r hL]

theorem countIntro_leader_intervention (st : DebateState) (env : TaskEnv)
    (r : Nat) {L : Nat} (hL : st.leaderIdx = some L) :
    countIntroTurns (agentTurns (leader_intervention st env r) L) =
      countIntroTurns (agentTurns st L) := by
  rcases ha : st.agents[L]? with _ | a
  · have hla : leaderAgent? st = none := by
      unfold leaderAgent?
      rw [hL]
      simp only [ha]
    unfold leader_intervention
    rw [hla]
  · have hla := leaderAgent?_of st hL ha
    rw [leader_intervention_turns_leader env r hla]
    apply countIntro_append_turn
    simp

theorem countIntro_phase_conclusion (st : DebateState) (env : TaskEnv)
    {L : Nat} (hL : st.leaderIdx = some L) :
    countIntroTurns (agentTurns (phase_conclusion st env) L) =
      countIntroTurns (agentTurns st L) := by
  rcases ha : st.agents[L]? with _ | a
  · have hla : leaderAgent? st = none := by
      unfold leaderAgent?
      rw [hL]
      simp only [ha]
    unfold phase_conclusion
    rw [hla]
    rfl
  · have hla := leaderAgent?_of st hL ha
    rw [phase_conclusion_turns_leader env hla]
    apply countIntro_append_turn
    simp

theorem runRounds_succ_eq_def (env : RunEnv) (st : DebateState) (r m : Nat) :
    runRounds env st r (m + 1) =
      (if (setFlag (phase_discussion { st with current_round := r }
            (env.discTasks r) r) (env.postDisc r)).cancelled
       then (setFlag (phase_discussion { st with current_round := r }
            (env.discTasks r) r) (env.postDisc r), true)
       else if (setFlag (leader_intervention
              (setFlag (phase_discussion { st with current_round := r }
                (env.discTasks r) r) (env.postDisc r))
              (env.modTask r) r) (env.postMod r)).cancelled
       then (setFlag (leader_intervention
              (setFlag (phase_discussion { st with current_round := r }
                (env.discTasks r) r) (env.postDisc r))
              (env.modTask r) r) (env.postMod r), true)
       else runRounds env
              (setFlag (leader_intervention
                (setFlag (phase_discussion { st with current_round := r }
                  (env.discTasks r) r) (env.postDisc r))
                (env.modTask r) r) (env.postMod r))
              (r + 1) m) := rfl

theorem runRounds_countIntro (env : RunEnv) {L : Nat} :
    ∀ (m : Nat) (st : DebateState) (r : Nat), st.leaderIdx = some L →
      countIntroTurns (agentTurns (runRounds env st r m).1 L) =
        countIntroTurns (agentTurns st L) ∧
      (runRounds env st r m).1.leaderIdx = some L := by
  intro m
  induction m with
  | zero => intro st r hL; exact ⟨rfl, hL⟩
  | succ m ih =>
      intro st r hL
      set st1 : DebateState := { st with current_round := r } with hst1
      have hL1 : st1.leaderIdx = some L := hL
      set st2 : DebateState := phase_discussion st1 (env.discTasks r) r with hst2
      have hL2 : st2.leaderIdx = some L := by
        rw [hst2, phase_discussion_leaderIdx]; exact hL1
      set st3 : DebateState := setFlag st2 (env.postDisc r) with hst3
      have hL3 : st3.leaderIdx = some L := hL2
      have hcnt2 : countIntroTurns (agentTurns st2 L) =
          countIntroTurns (agentTurns st L) := by
        rw [hst2, countIntro_phase_discussion st1 (env.discTasks r) r hL1]
        rfl
      have hcnt3 : countIntroTurns (agentTurns st3 L) =
          countIntroTurns (agentTurns st L) := hcnt2
      set st4 : DebateState := leader_intervention st3 (env.modTask r) r with hst4
      have hL4 : st4.leaderIdx = some L := by
        rw [hst4, leader_intervention_leaderIdx]; exact hL3
      set st5 : DebateState := setFlag st4 (env.postMod r) with hst5
      have hL5 : st5.leaderIdx = some L := hL4
      have hcnt4 : countIntroTurns (agentTurns st4 L) =
          countIntroTurns (agentTurns st L) := by
        rw [hst4, countIntro_leader_intervention st3 (env.modTask r) r hL3]
        exact hcnt3
      have hcnt5 : countIntroTurns (agentTurns st5 L) =
          countIntroTurns (agentTurns st L) := hcnt4
      have heq := runRounds_succ_eq_def env st r m
      rw [← hst1, ← hst2, ← hst3, ← hst4, ← hst5] at heq
      rw [heq]
      by_cases h3 : st3.cancelled = true
      · rw [if_pos h3]
        exact ⟨hcnt3, hL3⟩
      · rw [if_neg h3]
        by_cases h5 : st5.cancelled = true
        · rw [if_pos h5]
          exact ⟨hcnt5, hL5⟩
        · rw [if_neg h5]
          obtain ⟨ih1, ih2⟩ := ih st5 (r + 1) hL5
          exact ⟨by rw [ih1, hcnt5], ih2⟩

theorem run_eq_def (st : DebateState) (env : RunEnv) :
    run st env =
      (if (setFlag (phase_intro (emit st "start" 0 "init" none none false)
            env.introTask) env.postIntro).cancelled
       then (setFlag (phase_intro (emit st "start" 0 "init" none none false)
            env.introTask) env.postIntro,
          turnsMap (setFlag (phase_intro (emit st "start" 0 "init" none none false)
            env.introTask) env.postIntro))
       else if (runRounds env
            (setFlag (phase_intro (emit st "start" 0 "init" none none false)
              env.introTask) env.postIntro) 1
            (setFlag (phase_intro (emit st "start" 0 "init" none none false)
              env.introTask) env.postIntro).cfg.rounds).2
       then ((runRounds env
            (setFlag (phase_intro (emit st "start" 0 "init" none none false)
              env.introTask) env.postIntro) 1
            (setFlag (phase_intro (emit st "start" 0 "init" none none false)
              env.introTask) env.postIntro).cfg.rounds).1,
          turnsMap (runRounds env
            (setFlag (phase_intro (emit st "start" 0 "init" none none false)
              env.introTask) env.postIntro) 1
            (setFlag (phase_intro (emit st "start" 0 "init" none none false)
              env.introTask) env.postIntro).cfg.rounds).1)
       else
        (generate_continuation_question
          (emit (phase_conclusion (runRounds env
            (setFlag (phase_intro (emit st "start" 0 "init" none none false)
              env.introTask) env.postIntro) 1
            (setFlag (phase_intro (emit st "start" 0 "init" none none false)
              env.introTask) env.postIntro).cfg.rounds).1 env.conclusionTask)
            "end" 0 "end" none none false)
          env.continuation,
         turnsMap (generate_continuation_question
          (emit (phase_conclusion (runRounds env
            (setFlag (phase_intro (emit st "start" 0 "init" none none false)
              env.introTask) env.postIntro) 1
            (setFlag (phase_intro (emit st "start" 0 "init" none none false)
              env.introTask) env.postIntro).cfg.rounds).1 env.conclusionTask)
            "end" 0 "end" none none false)
          env.continuation))) := rfl

/-- Any `run` on a state with a valid moderator appends exactly one round-0
opening turn to the moderator, regardless of cancellations or errors:
`_phase_intro` is executed unconditionally at the top of `run`. -/
theorem run_adds_one_intro_turn (st : DebateState) (env : RunEnv) {L : Nat}
    (hL : st.leaderIdx = some L) (hlen : L < st.agents.length) :
    countIntroTurns (leaderTurns (run st env).1) =
      countIntroTurns (leaderTurns st) + 1 := by
  set st1 : DebateState := emit st "start" 0 "init" none none false with hst1
  have hL1 : st1.leaderIdx = some L := hL
  obtain ⟨a1, ha1⟩ := exists_getElem?_of_lt (l := st1.agents) (i := L) hlen
  have hla1 : leaderAgent? st1 = some (L, a1) := leaderAgent?_of st1 hL1 ha1
  set st2 : DebateState := phase_intro st1 env.introTask with hst2
  have hL2 : st2.leaderIdx = some L := by
    rw [hst2, phase_intro_leaderIdx]; exact hL1
  set st3 : DebateState := setFlag st2 env.postIntro with hst3
  have hL3 : st3.leaderIdx = some L := hL2
  have hcnt2 : countIntroTurns (agentTurns st2 L) =
      countIntroTurns (agentTurns st L) + 1 := by
    rw [hst2, phase_intro_countIntro env.introTask hla1]
    rfl
  have hcnt3 : countIntroTurns (agentTurns st3 L) =
      countIntroTurns (agentTurns st L) + 1 := hcnt2
  have heq := run_eq_def st env
  rw [← hst1, ← hst2, ← hst3] at heq
  rw [heq, leaderTurns_eq_agentTurns hL]
  set p := runRounds env st3 1 st3.cfg.rounds with hp
  obtain ⟨hcntp, hLp⟩ := runRounds_countIntro env st3.cfg.rounds st3 1 hL3
  rw [← hp] at hcntp hLp
  by_cases h3 : st3.cancelled = true
  · rw [if_pos h3]
    rw [leaderTurns_eq_agentTurns hL3]
    exact hcnt3
  · rw [if_neg h3]
    by_cases hp2 : p.2 = true
    · rw [if_pos hp2]
      rw [leaderTurns_eq_agentTurns hLp]
      rw [hcntp]
      exact hcnt3
    · rw [if_neg hp2]
      set st6 : DebateState := phase_conclusion p.1 env.conclusionTask with hst6
      have hL6 : st6.leaderIdx = some L := by
        rw [hst6, phase_conclusion_leaderIdx]; exact hLp
      have hL7 : (emit st6 "end" 0 "end" none none false).leaderIdx = some L := hL6
      have hL8 : (generate_continuation_question
          (emit st6 "end" 0 "end" none none false) env.continuation).leaderIdx =
          some L := by
        rw [generate_continuation_question_leaderIdx]
        exact hL7
      rw [leaderTurns_eq_agentTurns hL8]
      have ht8 : agentTurns (generate_continuation_question
          (emit st6 "end" 0 "end" none none false) env.continuation) L =
          agentTurns st6 L := by
        apply agentTurns_of_agents_eq
        rw [generate_continuation_question_agents]
        rfl
      rw [ht8, hst6, countIntro_phase_conclusion p.1 env.conclusionTask hLp,
        hcntp]
      exact hcnt3

/-- `continue_with` never changes the leader designation. -/
theorem continue_with_leaderIdx (st : DebateState) (p : String) :
    (continue_with st p).leaderIdx = st.leaderIdx := by
  unfold continue_with
  rcases h1 : leaderAgent? st with _ | ⟨L, a⟩ <;> dsimp only []
  · split
    · next hcond => exact absurd rfl hcond
    · rfl
  · split
    · rcases leaderAgent? _ with _ | ⟨M, b⟩ <;> rfl
    · rfl

/-- `continue_with` preserves the number of agents. -/
theorem continue_with_agents_length (st : DebateState) (p : String) :
    (continue_with st p).agents.length = st.agents.length := by
  unfold continue_with
  rcases h1 : leaderAgent? st with _ | ⟨L, a⟩ <;> dsimp only []
  · split
    · next hcond => exact absurd rfl hcond
    · simp [mapIdxFrom_length]
  · split
    · rcases leaderAgent? _ with _ | ⟨M, b⟩ <;> simp [mapIdxFrom_length]
    · simp [mapIdxFrom_length]

/-- C1 amended: after `continueWith(newPrompt)`, the next `run` DOES
execute the OPENING phase — it appends exactly one more round-0 opening
turn to the moderator before anything else; the phase sequence is not
entered at DISCUSSION(1). -/
theorem continue_with_then_run_executes_opening (st : DebateState)
    (p : String) (env : RunEnv) {L : Nat}
    (hL : st.leaderIdx = some L) (hlen : L < st.agents.length) :
    countIntroTurns (leaderTurns (run (continue_with st p) env).1) =
      countIntroTurns (leaderTurns (continue_with st p)) + 1 := by
  apply run_adds_one_intro_turn
  · rw [continue_with_leaderIdx]
    exact hL
  · rw [continue_with_agents_length]
    exact hlen

/-- C2 amended: when an incremental generation is abandoned mid-stream
because the cancellation flag was observed at fragment boundary `k`
(`k < chunks.length`), the partial concatenation is recorded as the
participant's TURN, but the conversation history is NOT touched: the
abandoned `think_stream` generator never reaches its history-commit lines,
so neither the user message nor a partial assistant message is appended.
History is committed only when the fragment sequence is exhausted. -/
theorem abandoned_stream_turn_but_no_history (st : DebateState)
    (env : DiscussionEnv) (r : Nat) {L i : Nat}
    (hL : st.leaderIdx = some L) (hne : i ≠ L) (hi : i < st.agents.length)
    (hc : st.cancelled = false) (chunks : List String) (k : Nat)
    (htask : env.tasks i = ⟨GenResult.ok chunks, some k⟩)
    (hk : k < chunks.length) :
    agentHistory (phase_discussion st env r) i = agentHistory st i ∧
    agentTurns (phase_discussion st env r) i =
      agentTurns st i ++
        [⟨r, "discussion", String.join (chunks.take k)⟩] := by
  have hneL : ¬ st.leaderIdx = some i := by
    rw [hL]
    intro hcon
    exact hne (by injection hcon with h; exact h.symm)
  have hcut : effCutoff st.cancelled (env.tasks i).cutoff = some k := by
    rw [hc, htask]
    rfl
  have hout : runStreamTask (env.tasks i).result
      (effCutoff st.cancelled (env.tasks i).cutoff) =
      runStreamTask (GenResult.ok chunks) (some k) := by
    rw [hcut, htask]
  have hcommit : (runStreamTask (GenResult.ok chunks) (some k)).committed = false := by
    unfold runStreamTask streamExhausted
    simp only [decide_eq_false_iff_not]
    omega
  constructor
  · rw [phase_discussion_history_ne st env r hi hneL, hout, hcommit]
    simp
  · rw [phase_discussion_turns_ne st env r hi hneL]
    unfold phaseContent
    rw [hout]
    unfold runStreamTask consumedChunks
    rfl

/-- C3 amended: after DISCUSSION(r) the name→content map keeps exactly the
pairs with non-empty name and non-empty content.  The moderator's empty
stub and any participant whose content is empty (cancelled before the
first fragment) are excluded — but a participant whose generation RAISED
is present, carrying the non-empty `[Error: ...]` placeholder. -/
theorem last_round_responses_excludes_only_empty (st : DebateState)
    (env : DiscussionEnv) (r : Nat) :
    (∀ p ∈ (phase_discussion st env r).last_round_responses,
      p.1 ≠ "" ∧ p.2 ≠ "") ∧
    (∀ i a prior emsg, st.agents[i]? = some a →
      ¬ st.leaderIdx = some i → a.config.name ≠ "" →
      st.cancelled = false →
      env.tasks i = ⟨GenResult.err prior emsg, none⟩ →
      (a.config.name, "[Error: " ++ emsg ++ "]") ∈
        (phase_discussion st env r).last_round_responses) := by
  constructor
  · intro p hp
    rw [phase_discussion_responses] at hp
    have hpred := List.of_mem_filter hp
    simp only [Bool.and_eq_true, Bool.not_eq_true', beq_eq_false_iff_ne] at hpred
    exact hpred
  · intro i a prior emsg ha hneL hname hc htask
    rw [phase_discussion_responses]
    apply List.mem_filter.mpr
    constructor
    · have hget : (mapIdxFrom (fun i a =>
          ((a.config.name,
            if st.leaderIdx = some i then ""
            else phaseContent st.cancelled (env.tasks i)) : String × String))
          0 st.agents)[i]? =
          some (a.config.name,
            if st.leaderIdx = some i then ""
            else phaseContent st.cancelled (env.tasks i)) := by
        rw [mapIdxFrom_getElem?, ha]
        simp
      have hcontent : (if st.leaderIdx = some i then ""
          else phaseContent st.cancelled (env.tasks i)) =
          "[Error: " ++ emsg ++ "]" := by
        rw [if_neg hneL]
        unfold phaseContent
        rw [hc, htask]
        rfl
      rw [hcontent] at hget
      exact List.getElem?_mem hget
    · simp only [Bool.and_eq_true, Bool.not_eq_true', beq_eq_false_iff_ne]
      refine ⟨hname, ?_⟩
      intro hcon
      have hlen := congrArg String.length hcon
      rw [String.length_append, String.length_append] at hlen
      have h1 : ("]" : String).length = 1 := rfl
      have h0 : ("" : String).length = 0 := rfl
      rw [h1, h0] at hlen
      omega

/-- C8: `add_round` increments the configured round count by exactly one
and leaves every participant — histories and turn lists — untouched (the
agent list is unchanged wholesale), while re-seeding the cross-round
context: when a conclusion turn exists (with non-empty content) the context
becomes the labelled wrapping of that final synthesis; when none exists it
keeps deriving from the last known moderator content (labelled wrapping of
`leader_last_content` when non-empty, unchanged when empty). -/
theorem add_round_spec (st : DebateState) :
    (add_round st).cfg.rounds = st.cfg.rounds + 1 ∧
    (add_round st).agents = st.agents ∧
    (add_round st).cfg.initial_prompt = st.cfg.initial_prompt ∧
    (∀ L a t, leaderAgent? st = some (L, a) →
      (a.turns.filter (fun (t : Turn) => t.phase == "conclusion")).getLast? =
        some t →
      t.content ≠ "" →
      (add_round st).leader_last_content =
        st.cfg.previous_context_label st.cfg.initial_prompt
          ++ "\n" ++ t.content) ∧
    (∀ L a, leaderAgent? st = some (L, a) →
      (a.turns.filter (fun (t : Turn) => t.phase == "conclusion")).getLast? =
        none →
      st.leader_last_content ≠ "" →
      (add_round st).leader_last_content =
        st.cfg.previous_context_label st.cfg.initial_prompt
          ++ "\n" ++ st.leader_last_content) ∧
    (∀ L a, leaderAgent? st = some (L, a) →
      (a.turns.filter (fun (t : Turn) => t.phase == "conclusion")).getLast? =
        none →
      st.leader_last_content = "" →
      (add_round st).leader_last_content = st.leader_last_content) := by
  refine ⟨?_, ?_, ?_, ?_, ?_, ?_⟩
  · unfold add_round
    split <;> (dsimp only []; split <;> rfl)
  · unfold add_round
    split <;> (dsimp only []; split <;> rfl)
  · unfold add_round
    split <;> (dsimp only []; split <;> rfl)
  · intro L a t hla hlast hne
    unfold add_round
    rw [hla]
    simp only [hlast, Option.map_some', Option.getD_some, if_neg hne]
  · intro L a hla hlast hne
    unfold add_round
    rw [hla]
    simp only [hlast, Option.map_none', Option.getD_none, if_neg hne]
  · intro L a hla hlast hemp
    unfold add_round
    rw [hla]
    simp only [hlast, Option.map_none', Option.getD_none, hemp, if_pos]

/-- C9: `save` does not modify the session state, and the exported
document is a deterministic function of that state — so two exports
without an intervening `run` produce byte-identical content (even when the
clock string differs, only the default file name changes). -/
theorem save_twice_identical (st : DebateState) (path : Option String)
    (now1 now2 : String) :
    (save st path now1).2.2 = st ∧
    (save ((save st path now1).2.2) path now2).2.1 = (save st path now1).2.1 := by
  have h1 : (save st path now1).2.2 = st := rfl
  have h2 : (save st path now1).2.1 = build_markdown st := rfl
  have h3 : (save st path now2).2.1 = build_markdown st := rfl
  refine ⟨h1, ?_⟩
  rw [h1, h2, h3]

/-- C10: `Agent.think` is atomic on error — when the provider call raises,
the error propagates and the conversation history is left exactly
unchanged (both appends sit after the awaited call); on success exactly the
user message and the assistant message are appended. -/
theorem think_atomic_on_error :
    (∀ (a : Agent) (prompt : String) (context : Option String)
      (tmpl : Option (String → String → String)) (emsg : String),
      a.think prompt context tmpl (Except.error emsg) =
        (Except.error emsg, a)) ∧
    (∀ (a : Agent) (prompt : String) (context : Option String)
      (tmpl : Option (String → String → String)) (content : String),
      (a.think prompt context tmpl (Except.ok content)).2.history =
        a.history ++
          [⟨"user", userContent prompt context tmpl⟩,
           ⟨"assistant", content⟩] ∧
      (a.think prompt context tmpl (Except.ok content)).1 =
        Except.ok content) := by
  constructor
  · intro a prompt context tmpl emsg
    rfl
  · intro a prompt context tmpl content
    exact ⟨rfl, rfl⟩

/-! ### Counterexamples and witnesses at concrete inputs -/

/-- C1 counterexample: after a completed run and `continue_with "u"`, the
moderator holds 1 round-0 opening turn; the next `run` produces a SECOND
one — the OPENING phase is executed again, so the phase sequence does not
start at DISCUSSION(1) as the claim states. -/
theorem opening_not_skipped_after_continue :
    countIntroTurns (leaderTurns
      (continue_with (run (initDebate mcT) cleanEnvT).1 "u")) = 1 ∧
    countIntroTurns (leaderTurns
      (run (continue_with (run (initDebate mcT) cleanEnvT).1 "u")
        cleanEnvT).1) = 2 := by
  decide

/-- Witness for the amended C1 at a concrete state and environment. -/
theorem continue_with_then_run_executes_opening_witness :
    ((initDebate mcT).leaderIdx = some 0 ∧
      0 < (initDebate mcT).agents.length) ∧
    countIntroTurns (leaderTurns
      (run (continue_with (initDebate mcT) "u") cleanEnvT).1) =
      countIntroTurns (leaderTurns (continue_with (initDebate mcT) "u")) + 1 :=
  ⟨⟨by decide, by decide⟩,
   @continue_with_then_run_executes_opening (initDebate mcT) "u" cleanEnvT 0
     (by decide) (by decide)⟩

/-- C2 counterexample: agent 1's stream yields "x","y","z" but is
abandoned on cancellation after one fragment; the partial "x" is recorded
as the turn, yet the conversation history stays EMPTY — no user message
and no partial assistant message is committed, contrary to the claim. -/
theorem partial_not_committed_to_history :
    agentHistory (phase_discussion (initDebate mcT) denvC2T 1) 1 = [] ∧
    agentTurns (phase_discussion (initDebate mcT) denvC2T 1) 1 =
      [⟨1, "discussion", "x"⟩] := by
  decide

/-- Witness for the amended C2 at a concrete state and environment. -/
theorem abandoned_stream_turn_but_no_history_witness :
    ((initDebate mcT).leaderIdx = some 0 ∧ (1 : Nat) ≠ 0 ∧
      1 < (initDebate mcT).agents.length ∧
      (initDebate mcT).cancelled = false ∧
      denvC2T.tasks 1 = ⟨GenResult.ok ["x", "y", "z"], some 1⟩ ∧
      1 < (["x", "y", "z"] : List String).length) ∧
    (agentHistory (phase_discussion (initDebate mcT) denvC2T 1) 1 =
        agentHistory (initDebate mcT) 1 ∧
      agentTurns (phase_discussion (initDebate mcT) denvC2T 1) 1 =
        agentTurns (initDebate mcT) 1 ++
          [⟨1, "discussion", String.join (["x", "y", "z"].take 1)⟩]) :=
  ⟨⟨by decide, by decide, by decide, by decide, by decide, by decide⟩,
   @abandoned_stream_turn_but_no_history (initDebate mcT) denvC2T 1 0 1
     (by decide) (by decide) (by decide) (by decide) ["x", "y", "z"] 1
     (by decide) (by decide)⟩

/-- C3 counterexample: agent "a" (index 1) raised during generation, yet
the name→content map DOES contain an entry for it — the non-empty
placeholder `[Error: boom]` — contrary to the claim that an errored
participant has no entry. -/
theorem errored_participant_present_in_map :
    (phase_discussion (initDebate mcT) denvC3T 1).last_round_responses =
      [("a", "[Error: boom]"), ("b", "w")] := by
  decide

/-- Witness for the amended C3 at a concrete state and environment. -/
theorem last_round_responses_excludes_only_empty_witness :
    ((initDebate mcT).agents[1]? = some (mkAgent acA) ∧
      ¬ (initDebate mcT).leaderIdx = some 1 ∧
      (mkAgent acA).config.name ≠ "" ∧
      (initDebate mcT).cancelled = false ∧
      denvC3T.tasks 1 = ⟨GenResult.err [] "boom", none⟩) ∧
    ((mkAgent acA).config.name, "[Error: " ++ "boom" ++ "]") ∈
      (phase_discussion (initDebate mcT) denvC3T 1).last_round_responses :=
  ⟨⟨by decide, by decide, by decide, by decide, by decide⟩,
   (last_round_responses_excludes_only_empty (initDebate mcT) denvC3T 1).2
     1 (mkAgent acA) [] "boom" (by decide) (by decide) (by decide)
     (by decide) (by decide)⟩

/-- Witness for C4 at the concrete three-agent, one-round meeting. -/
theorem run_clean_turn_shape_witness :
    (mcT.agent_configs ≠ [] ∧ 0 < mcT.debate.rounds ∧ CleanEnv cleanEnvT) ∧
    (∃ L, (initDebate mcT).leaderIdx = some L ∧
      ((agentTurns (run (initDebate mcT) cleanEnvT).1 L).map turnPair =
        (0, "intro")
          :: (List.range mcT.debate.rounds).map
              (fun k => (k + 1, "leader_intervention"))
          ++ [(mcT.debate.rounds, "conclusion")]) ∧
      (∀ i, i < mcT.agent_configs.length → i ≠ L →
        (agentTurns (run (initDebate mcT) cleanEnvT).1 i).map turnPair =
          (List.range mcT.debate.rounds).map (fun k => (k + 1, "discussion"))) ∧
      (run (initDebate mcT) cleanEnvT).2 =
        turnsMap (run (initDebate mcT) cleanEnvT).1) :=
  ⟨⟨by decide, by decide,
    ⟨⟨rfl, fun _ => rfl, fun _ => rfl⟩, ⟨rfl, _, rfl⟩, ⟨rfl, _, rfl⟩,
      fun _ _ => ⟨rfl, _, rfl⟩, fun _ => ⟨rfl, _, rfl⟩⟩⟩,
   run_clean_turn_shape mcT cleanEnvT (by decide) (by decide)
    ⟨⟨rfl, fun _ => rfl, fun _ => rfl⟩, ⟨rfl, _, rfl⟩, ⟨rfl, _, rfl⟩,
      fun _ _ => ⟨rfl, _, rfl⟩, fun _ => ⟨rfl, _, rfl⟩⟩⟩

/-- Witness for C5: two-round meeting, flag set during DISCUSSION(1). -/
theorem run_cancel_during_discussion_witness :
    (mc2T.agent_configs ≠ [] ∧ (1 : Nat) ≤ 1 ∧ 1 ≤ mc2T.debate.rounds ∧
      envC5T.postIntro = false ∧
      (∀ r, r < 1 → envC5T.postDisc r = false) ∧
      (∀ r, r < 1 → envC5T.postMod r = false) ∧
      envC5T.postDisc 1 = true) ∧
    (∃ L, (initDebate mc2T).leaderIdx = some L ∧
      (run (initDebate mc2T) envC5T).2 =
        turnsMap (run (initDebate mc2T) envC5T).1 ∧
      ((agentTurns (run (initDebate mc2T) envC5T).1 L).map turnPair =
        (0, "intro") :: (List.range (1 - 1)).map
          (fun k => (k + 1, "leader_intervention"))) ∧
      (∀ i, i < mc2T.agent_configs.length → i ≠ L →
        (agentTurns (run (initDebate mc2T) envC5T).1 i).map turnPair =
          (List.range 1).map (fun k => (k + 1, "discussion"))) ∧
      (∀ e ∈ (run (initDebate mc2T) envC5T).1.events,
        e.type ≠ "continuation_suggestion")) :=
  ⟨⟨by decide, by decide, by decide, rfl,
    fun r hr => by
      show (r == 1) = false
      have hne : r ≠ 1 := by omega
      simp [hne],
    fun _ _ => rfl, by decide⟩,
   run_cancel_during_discussion mc2T envC5T 1 (by decide) (by decide)
     (by decide) rfl
     (fun r hr => by
       show (r == 1) = false
       have hne : r ≠ 1 := by omega
       simp [hne])
     (fun _ _ => rfl) (by decide)⟩

/-- Witness for C6: agent 1's round-1 discussion task raises. -/
theorem discussion_error_recovered_witness :
    (mcT.agent_configs ≠ [] ∧ (1 : Nat) ≤ 1 ∧ 1 ≤ mcT.debate.rounds ∧
      NoCancelEnv envC6T ∧
      (envC6T.discTasks 1).tasks 1 = ⟨GenResult.err [] "boom", none⟩ ∧
      1 < mcT.agent_configs.length) ∧
    (∃ L, (initDebate mcT).leaderIdx = some L ∧
      ((1 : Nat) ≠ L →
        (⟨1, "discussion", "[Error: " ++ "boom" ++ "]"⟩ : Turn) ∈
          agentTurns (run (initDebate mcT) envC6T).1 1) ∧
      (∀ j, j < mcT.agent_configs.length → j ≠ L →
        (agentTurns (run (initDebate mcT) envC6T).1 j).length =
          mcT.debate.rounds) ∧
      (⟨1, "leader_intervention", modContent envC6T 1⟩ : Turn) ∈
        agentTurns (run (initDebate mcT) envC6T).1 L) :=
  ⟨⟨by decide, by decide, by decide, ⟨rfl, fun _ => rfl, fun _ => rfl⟩,
    by decide, by decide⟩,
   discussion_error_recovered mcT envC6T 1 1 [] "boom" (by decide)
     (by decide) (by decide) ⟨rfl, fun _ => rfl, fun _ => rfl⟩
     (by decide) (by decide)⟩

/-- Witness for C7: the follow-up provider call raises in an otherwise
clean run. -/
theorem followup_nonmutating_and_failure_swallowed_witness :
    ((generate_continuation_question (initDebate mcT)
        (Except.error "x")).agents = (initDebate mcT).agents) ∧
    (mcT.agent_configs ≠ [] ∧ 0 < mcT.debate.rounds ∧ NoCancelEnv envErrT ∧
      envErrT.continuation = Except.error "boom") ∧
    (∃ L c, (initDebate mcT).leaderIdx = some L ∧
      agentConfigAt (initDebate mcT) L = some c ∧
      (run (initDebate mcT) envErrT).1.events.getLast? =
        some ⟨"continuation_suggestion", 0, "end", some c.name,
          some "", false⟩ ∧
      (run (initDebate mcT) envErrT).2 =
        turnsMap (run (initDebate mcT) envErrT).1) :=
  ⟨followup_nonmutating_and_failure_swallowed.1 (initDebate mcT)
    (Except.error "x"),
   ⟨by decide, by decide, ⟨rfl, fun _ => rfl, fun _ => rfl⟩, rfl⟩,
   followup_nonmutating_and_failure_swallowed.2 mcT envErrT "boom"
     (by decide) (by decide) ⟨rfl, fun _ => rfl, fun _ => rfl⟩ rfl⟩

/-- Witness for C8 at a concrete finished-debate state. -/
theorem add_round_spec_witness :
    (leaderAgent? stC8 =
        some (0, ⟨acM, [⟨"user", "q"⟩], [⟨1, "conclusion", "Z"⟩]⟩) ∧
      ((⟨acM, [⟨"user", "q"⟩], [⟨1, "conclusion", "Z"⟩]⟩ : Agent).turns.filter
          (fun (t : Turn) => t.phase == "conclusion")).getLast? =
        some ⟨1, "conclusion", "Z"⟩ ∧
      (⟨1, "conclusion", "Z"⟩ : Turn).content ≠ "") ∧
    ((add_round stC8).cfg.rounds = stC8.cfg.rounds + 1 ∧
      (add_round stC8).agents = stC8.agents ∧
      (add_round stC8).leader_last_content =
        stC8.cfg.previous_context_label stC8.cfg.initial_prompt
          ++ "\n" ++ (⟨1, "conclusion", "Z"⟩ : Turn).content) :=
  ⟨⟨by decide, by decide, by decide⟩,
   (add_round_spec stC8).1, (add_round_spec stC8).2.1,
   (add_round_spec stC8).2.2.2.1 0
     ⟨acM, [⟨"user", "q"⟩], [⟨1, "conclusion", "Z"⟩]⟩
     ⟨1, "conclusion", "Z"⟩ (by decide) (by decide) (by decide)⟩

end DebateAgents
